import Mathlib

/-!
# pico-mnist: the touch-to-inference pipeline of `pj_mnist/Main.cpp`

A shallow embedding of the main loop, `writeMnistBuffer`, `reset` and `run`.

Conventions of the embedding:

* a C++ `float` is a rational (`ℚ`). In the main loop and in `writeMnistBuffer` every
  `float` operation and every conversion from `int` to `float` rounds its exact result
  to the nearest binary32 value, ties to even (`roundF32`, subnormals included);
  NaN is not modelled, and a result beyond the binary32 range is kept as the rounded
  finite value, which compares and converts like the infinity it stands for;
* the score of line 209 is kept exact: for the zero point of an `int8` tensor and a
  scale whose products stay finite, the rounded product is strictly monotone in the
  integer factor, so the comparisons of line 216 are those of the exact products;
* a conversion from `float` to `int32_t` truncates toward zero and is undefined
  (`none`) when the truncated value does not fit in 32 bits;
* `int8_t`/`int32_t` values are integers (`Int`); the arrays `s_mnistBuffer`,
  `input->data.int8` and `output->data.int8` are lists;
* `LcdIli9341SPI::WIDTH` and `LcdIli9341SPI::HEIGHT` come from a header that is
  not part of the sources, so they are parameters (`LcdIli9341SPI`);
* the display calls (`drawLine`, `drawRect`, `putText`, `printf`) have no effect on
  the state that is modelled and are left out;
* the interpreter is a black box: `Invoke` maps the input tensor to the output
  tensor, or fails.
-/

namespace PicoMnist

/-! ## Constants (Main.cpp, lines 22-27) -/

def AREA_X0 : Int := 100
def AREA_Y0 : Int := 50
def AREA_X1 : Int := 100 + 100
def AREA_Y1 : Int := 50 + 100
def MNIST_W : Int := 28
def MNIST_H : Int := 28

def INT32_MIN : Int := -2147483648
def INT32_MAX : Int := 2147483647

/-- The two constants of `LcdIli9341SPI` that `Main.cpp` reads. -/
structure LcdIli9341SPI where
  WIDTH : Int
  HEIGHT : Int

/-- The constants are non-negative and below `2 ^ 24`, so that they convert to `float`
without rounding. -/
def LcdIli9341SPI.valid (lcd : LcdIli9341SPI) : Prop :=
  (0 ≤ lcd.WIDTH ∧ lcd.WIDTH < 16777216) ∧ (0 ≤ lcd.HEIGHT ∧ lcd.HEIGHT < 16777216)

/-- The panel in landscape orientation, 320 x 240 pixels. -/
def lcd320x240 : LcdIli9341SPI := ⟨320, 240⟩

/-! ## binary32 arithmetic -/

/-- Rounding of a rational to the nearest integer, ties to the even one. -/
def roundHalfEven (t : ℚ) : Int :=
  if t - ⌊t⌋ < 1 / 2 then ⌊t⌋
  else if 1 / 2 < t - ⌊t⌋ then ⌊t⌋ + 1
  else if ⌊t⌋ % 2 = 0 then ⌊t⌋ else ⌊t⌋ + 1

/-- The binary exponent that fixes the spacing of binary32 values around a positive
`v`: `floor (log2 v)`, and -126 throughout the subnormal range. -/
def binade (v : ℚ) : Int := max (Int.log 2 v) (-126)

/-- The spacing of binary32 values around a positive `v` (24 bits of precision). -/
def ulp (v : ℚ) : ℚ := (2 : ℚ) ^ (binade v - 23)

/-- Rounding to the nearest binary32 value, ties to even. -/
def roundF32 (v : ℚ) : ℚ :=
  if 0 ≤ v then roundHalfEven (v / ulp v) * ulp v
  else -(roundHalfEven (-v / ulp (-v)) * ulp (-v))

/-- Conversion from `int32_t` to `float`. -/
def i2f (n : Int) : ℚ := roundF32 n

/-- The `float` difference `a - b`. -/
def fsub (a b : ℚ) : ℚ := roundF32 (a - b)

/-- The `float` product `a * b`. -/
def fmul (a b : ℚ) : ℚ := roundF32 (a * b)

/-- The `float` quotient `a / b`. -/
def fdiv (a b : ℚ) : ℚ := roundF32 (a / b)

/-! ## Conversions to `int32_t` -/

/-- Truncation toward zero of a rational. -/
def truncQ (v : ℚ) : Int := if 0 ≤ v then ⌊v⌋ else ⌈v⌉

/-- Conversion `float` to `int32_t` (`static_cast<int32_t>(v)`, or the implicit
conversion of an assignment): truncation toward zero, undefined when out of range. -/
def toInt32 (v : ℚ) : Option Int :=
  if INT32_MIN ≤ truncQ v ∧ truncQ v ≤ INT32_MAX then some (truncQ v) else none

/-! ## `writeMnistBuffer` (lines 152-161) and `reset` (lines 163-174) -/

/-- Lines 152-161. The result is the content of `s_mnistBuffer` after the call;
`none` is undefined behaviour: a conversion out of range, or a store outside the
`MNIST_W * MNIST_H` cells of the array. -/
def writeMnistBuffer (s_mnistBuffer : List Int) (tpX tpY : ℚ) : Option (List Int) := do
  let x : ℚ := fdiv (fsub tpX (i2f AREA_X0)) (i2f (AREA_X1 - AREA_X0))
  let y : ℚ := fdiv (fsub tpY (i2f AREA_Y0)) (i2f (AREA_Y1 - AREA_Y0))
  let xInBuff ← toInt32 (fmul x (i2f MNIST_W))
  let yInBuff ← toInt32 (fmul y (i2f MNIST_H))
  if xInBuff < 0 ∨ MNIST_W ≤ xInBuff then
    some s_mnistBuffer
  else if yInBuff < 0 ∨ MNIST_H ≤ yInBuff then
    some s_mnistBuffer
  else if 0 ≤ xInBuff + yInBuff * MNIST_W ∧ xInBuff + yInBuff * MNIST_W < MNIST_W * MNIST_H then
    some (s_mnistBuffer.set (xInBuff + yInBuff * MNIST_W).toNat 1)
  else
    none

/-- The float handed to the first `static_cast` (lines 154 and 156). -/
def scaledX (tpX : ℚ) : ℚ :=
  fmul (fdiv (fsub tpX (i2f AREA_X0)) (i2f (AREA_X1 - AREA_X0))) (i2f MNIST_W)

/-- The float handed to the second `static_cast` (lines 155 and 157). -/
def scaledY (tpY : ℚ) : ℚ :=
  fmul (fdiv (fsub tpY (i2f AREA_Y0)) (i2f (AREA_Y1 - AREA_Y0))) (i2f MNIST_H)

/-- The guards of lines 158-159 let the pair `(xInBuff, yInBuff)` through. -/
def inGrid (xInBuff yInBuff : Int) : Prop :=
  (0 ≤ xInBuff ∧ xInBuff < MNIST_W) ∧ (0 ≤ yInBuff ∧ yInBuff < MNIST_H)

instance (a b : Int) : Decidable (inGrid a b) := by
  unfold inGrid; infer_instance

/-- Line 173 of `reset`: `memset(s_mnistBuffer, 0, sizeof(s_mnistBuffer))`. -/
def reset (_s_mnistBuffer : List Int) : List Int :=
  List.replicate (MNIST_W * MNIST_H).toNat 0

/-! ## `run` (lines 176-225) -/

/-- The part of a `TfLiteTensor` that `run` reads: `data.int8`, `params.zero_point`
and `params.scale`. -/
structure TfLiteTensor where
  int8 : List Int
  zero_point : Int
  scale : ℚ

/-- The interpreter as `run` sees it: the content of `input(0)->data.int8` before the
call, and `Invoke`, which maps the input tensor to `output(0)`, or to `none` when
the status is not `kTfLiteOk`. -/
structure MicroInterpreter where
  input : List Int
  Invoke : List Int → Option TfLiteTensor

/-- Lines 190-196: the loop that fills `input->data.int8` from `s_mnistBuffer`. -/
def run_setInput (s_mnistBuffer input : List Int) : List Int :=
  (List.range (MNIST_W * MNIST_H).toNat).foldl
    (fun inp i => inp.set i (if s_mnistBuffer.getD i 0 = 1 then 127 else -128)) input

/-- Line 209: `(output->data.int8[i] - output->params.zero_point) * output->params.scale`;
the difference is taken in `int` (it cannot overflow for the zero point of an `int8`
tensor); the product is kept exact, which leaves every comparison of line 216 as it
is in `float`. -/
def score (output : TfLiteTensor) (i : Nat) : ℚ :=
  ((output.int8.getD i 0 - output.zero_point : Int) : ℚ) * output.scale

/-- Lines 209-219: the body of the loop on `(maxIndex, maxScore)`; the text output of
lines 210-214 is left out. -/
def showStep (output : TfLiteTensor) (acc : Nat × ℚ) (i : Nat) : Nat × ℚ :=
  if score output i > acc.2 then (i, score output i) else acc

/-- Lines 206-220: `maxIndex = 0`, `maxScore = 0`, then the loop over the ten classes;
the result is `(maxIndex, maxScore)`. -/
def run_showResult (output : TfLiteTensor) : Nat × ℚ :=
  (List.range 10).foldl (showStep output) (0, 0)

/-- The `maxIndex` that lines 221-224 display. -/
def run_maxIndex (output : TfLiteTensor) : Nat := (run_showResult output).1

/-- What a call of `run` leaves behind. -/
structure RunResult where
  s_mnistBuffer : List Int
  input : List Int
  maxIndex : Option Nat

/-- Lines 176-225. `maxIndex = none` stands for `HALT()` (line 202): the call never
returns. -/
def run (interpreter : MicroInterpreter) (s_mnistBuffer : List Int) : RunResult :=
  let input := run_setInput s_mnistBuffer interpreter.input
  match interpreter.Invoke input with
  | none => { s_mnistBuffer := s_mnistBuffer, input := input, maxIndex := none }
  | some output =>
    { s_mnistBuffer := s_mnistBuffer, input := input, maxIndex := some (run_maxIndex output) }

/-! ## The main loop (lines 60-85) -/

/-- One result of `tp->getFromDevice(tpX, tpY, tpPressure)`. -/
structure TouchSample where
  tpX : ℚ
  tpY : ℚ
  tpPressure : ℚ

/-- The state that survives an iteration of the loop. -/
structure State where
  s_mnistBuffer : List Int
  tpXprevious : Int
  tpYprevious : Int

/-- The state at line 60-61, after the `reset(lcd)` of line 58. -/
def State.init : State := ⟨reset [], -1, -1⟩

/-- The two calls the loop can make on a new contact. -/
inductive Action
  | Reset
  | Infer
  deriving DecidableEq

/-- One iteration of the loop as seen from outside: the state after it, the mode
action it triggered (`reset(lcd)` of line 75 or `run(lcd, interpreter)` of line 77),
whether `writeMnistBuffer` was called (line 72), and whether it ended in `HALT()`. -/
structure Tick where
  state : State
  action : Option Action
  rasterized : Bool
  halted : Bool

/-- Line 65: the test that accepts a sample. -/
def accepted (s : TouchSample) : Prop := s.tpPressure > 50 ∧ s.tpX < 95 / 100

instance (s : TouchSample) : Decidable (accepted s) := by
  unfold accepted; infer_instance

/-- Lines 79-80: `tpXprevious = tpX; tpYprevious = tpY;`, closing an iteration whose
branch left `s_mnistBuffer`, `action` and `rasterized` behind. -/
def setPrevious (s_mnistBuffer : List Int) (tpX tpY : ℚ) (action : Option Action)
    (rasterized : Bool) : Option Tick := do
  let tpXprevious ← toInt32 tpX
  let tpYprevious ← toInt32 tpY
  some { state := ⟨s_mnistBuffer, tpXprevious, tpYprevious⟩, action := action,
         rasterized := rasterized, halted := false }

/-- Line 67: the `x` of the screen point, the `float` that `tpX` holds from there on. -/
def screenX (lcd : LcdIli9341SPI) (s : TouchSample) : ℚ := fmul s.tpX (i2f lcd.WIDTH)

/-- Line 68: the `y` of the screen point, the `float` that `tpY` holds from there on. -/
def screenY (lcd : LcdIli9341SPI) (s : TouchSample) : ℚ := fmul s.tpY (i2f lcd.HEIGHT)

/-- Lines 63-84: one iteration of `while(1)`. `none` is undefined behaviour.
Lines 67-68 are the `float` products `screenX` and `screenY`, line 70 takes `float`
differences with the converted previous point, and lines 74 and 76 compare with the
converted `int` values `WIDTH - 80` and `HEIGHT - 50`; the constants 50 and 10 convert
without rounding. `std::abs` is the `float` overload; `drawLine` (line 71) is left
out. -/
def tick (lcd : LcdIli9341SPI) (interpreter : MicroInterpreter) (st : State)
    (s : TouchSample) : Option Tick :=
  if s.tpPressure > 50 ∧ s.tpX < 95 / 100 then
    let tpX : ℚ := screenX lcd s
    let tpY : ℚ := screenY lcd s
    if st.tpXprevious ≠ -1 then
      if |fsub tpX (i2f st.tpXprevious)| < 10 ∧ |fsub tpY (i2f st.tpYprevious)| < 10 then
        match writeMnistBuffer st.s_mnistBuffer tpX tpY with
        | none => none
        | some buf => setPrevious buf tpX tpY none true
      else
        setPrevious st.s_mnistBuffer tpX tpY none false
    else if i2f (lcd.WIDTH - 80) < tpX ∧ tpY < 50 then
      setPrevious (reset st.s_mnistBuffer) tpX tpY (some Action.Reset) false
    else if i2f (lcd.WIDTH - 80) < tpX ∧ i2f (lcd.HEIGHT - 50) < tpY then
      match (run interpreter st.s_mnistBuffer).maxIndex with
      | none =>
        some { state := ⟨(run interpreter st.s_mnistBuffer).s_mnistBuffer,
                         st.tpXprevious, st.tpYprevious⟩,
               action := some Action.Infer, rasterized := false, halted := true }
      | some _ =>
        setPrevious (run interpreter st.s_mnistBuffer).s_mnistBuffer tpX tpY
          (some Action.Infer) false
    else
      setPrevious st.s_mnistBuffer tpX tpY none false
  else
    some { state := ⟨st.s_mnistBuffer, -1, -1⟩, action := none, rasterized := false,
           halted := false }

/-- The loop of lines 62-85 over a finite stream of samples. It stops at the first
iteration that halts; the result is the state reached and whether the loop halted. -/
def mainLoop (lcd : LcdIli9341SPI) (interpreter : MicroInterpreter) :
    State → List TouchSample → Option (State × Bool)
  | st, [] => some (st, false)
  | st, s :: rest =>
    match tick lcd interpreter st s with
    | none => none
    | some r => if r.halted then some (r.state, true) else mainLoop lcd interpreter r.state rest

/-! ## Vocabulary of the statements -/

/-- Line 70: the noise test against the stored previous point. -/
def near (lcd : LcdIli9341SPI) (st : State) (s : TouchSample) : Prop :=
  |fsub (screenX lcd s) (i2f st.tpXprevious)| < 10 ∧
    |fsub (screenY lcd s) (i2f st.tpYprevious)| < 10

/-- Line 74: the screen point of the sample lies in the "clear" region. -/
def inClear (lcd : LcdIli9341SPI) (s : TouchSample) : Prop :=
  i2f (lcd.WIDTH - 80) < screenX lcd s ∧ screenY lcd s < 50

/-- Line 76: the screen point of the sample lies in the "run" region. -/
def inRun (lcd : LcdIli9341SPI) (s : TouchSample) : Prop :=
  i2f (lcd.WIDTH - 80) < screenX lcd s ∧ i2f (lcd.HEIGHT - 50) < screenY lcd s

/-- The contract of the touch source: both coordinates are normalised to `[0, 1]`. -/
def inUnitSquare (s : TouchSample) : Prop :=
  (0 ≤ s.tpX ∧ s.tpX ≤ 1) ∧ (0 ≤ s.tpY ∧ s.tpY ≤ 1)

/-! ## Concrete data

The coordinates of `sampleA`, `sampleB`, `sampleC` and `sampleLeft` are binary32
values, and so are their exact screen points on the 320 x 240 panel: the products of
lines 67-68 do not round for them. -/

/-- An output tensor of logits: the decoded scores are -1.5, -0.5, -1, -2, -2.5, ... -/
def logitsTensor : TfLiteTensor := ⟨[-3, -1, -2, -4, -5, -5, -5, -5, -5, -5], 0, 1 / 2⟩

/-- An output tensor with decoded scores 0.3, 0.3, 0.9, 0.1, 0, ... -/
def strictMaxTensor : TfLiteTensor := ⟨[3, 3, 9, 1, 0, 0, 0, 0, 0, 0], 0, 1 / 10⟩

/-- An output tensor with decoded scores 0.9, 0.9, 0.1, 0, ... -/
def tiedMaxTensor : TfLiteTensor := ⟨[9, 9, 1, 0, 0, 0, 0, 0, 0, 0], 0, 1 / 10⟩

/-- An interpreter with a zeroed input tensor whose `Invoke` fails. -/
def failingInterpreter : MicroInterpreter := ⟨List.replicate 784 0, fun _ => none⟩

/-- A contact whose screen point is `(160.625, 120)` on the 320 x 240 panel. -/
def sampleA : TouchSample := ⟨257 / 512, 1 / 2, 100⟩

/-- A contact whose screen point is `(150.3125, 120)` on the 320 x 240 panel. -/
def sampleB : TouchSample := ⟨481 / 1024, 1 / 2, 100⟩

/-- A contact whose screen point is `(80, 120)` on the 320 x 240 panel. -/
def sampleC : TouchSample := ⟨1 / 4, 1 / 2, 100⟩

/-- A contact whose screen point is `(98.75, 60)`, left of the drawing area. -/
def sampleLeft : TouchSample := ⟨79 / 256, 1 / 4, 100⟩

/-- A contact whose screen point is `(288, 24)`, inside the "clear" region. -/
def sampleClear : TouchSample := ⟨9 / 10, 1 / 10, 100⟩

/-- A contact with `x = 0.9f`: the exact product with 320 is below 288, the `float`
product is 288. -/
def sampleRound288 : TouchSample := ⟨7549747 / 8388608, 1 / 2, 100⟩

/-- A contact whose exact `x * 320` is below 151 and whose `float` product is 151. -/
def sampleRound151 : TouchSample := ⟨15833497 / 33554432, 1 / 2, 100⟩

/-- A contact whose exact `y * 240` is below 50 and whose `float` product is 50. -/
def sampleRound50 : TouchSample := ⟨13 / 16, 13981013 / 67108864, 100⟩

/-- A contact whose exact `y * 240` is above 190 and whose `float` product is 190. -/
def sampleRound190 : TouchSample := ⟨13 / 16, 13281963 / 16777216, 100⟩

/-- A contact whose screen point is `(160, 120)` on the 320 x 240 panel. -/
def sampleCentre : TouchSample := ⟨1 / 2, 1 / 2, 100⟩

/-! # Proofs -/

/-! ## binary32 rounding: monotone, and exact on binary32 values -/

theorem roundHalfEven_intCast (n : Int) : roundHalfEven (n : ℚ) = n := by
  unfold roundHalfEven
  rw [Int.floor_intCast, sub_self, if_pos (by norm_num)]

theorem floor_le_roundHalfEven (t : ℚ) : ⌊t⌋ ≤ roundHalfEven t := by
  unfold roundHalfEven
  split_ifs <;> omega

theorem roundHalfEven_le_floor_succ (t : ℚ) : roundHalfEven t ≤ ⌊t⌋ + 1 := by
  unfold roundHalfEven
  split_ifs <;> omega

theorem roundHalfEven_mono {t u : ℚ} (h : t ≤ u) : roundHalfEven t ≤ roundHalfEven u := by
  rcases lt_or_eq_of_le (Int.floor_mono h) with hlt | heq
  · calc roundHalfEven t ≤ ⌊t⌋ + 1 := roundHalfEven_le_floor_succ t
      _ ≤ ⌊u⌋ := hlt
      _ ≤ roundHalfEven u := floor_le_roundHalfEven u
  · unfold roundHalfEven
    rw [← heq]
    have hfr : t - ⌊t⌋ ≤ u - ⌊t⌋ := by linarith
    split_ifs <;> first | omega | (exfalso; linarith)

theorem roundHalfEven_le {t : ℚ} {n : Int} (h : t ≤ n) : roundHalfEven t ≤ n := by
  have := roundHalfEven_mono h
  rwa [roundHalfEven_intCast] at this

theorem le_roundHalfEven {t : ℚ} {n : Int} (h : (n : ℚ) ≤ t) : n ≤ roundHalfEven t := by
  have := roundHalfEven_mono h
  rwa [roundHalfEven_intCast] at this

theorem ulp_pos (v : ℚ) : 0 < ulp v := by
  unfold ulp
  exact zpow_pos (by norm_num) _

theorem roundF32_zero : roundF32 0 = 0 := by
  unfold roundF32
  rw [if_pos (le_refl _), zero_div]
  have : roundHalfEven 0 = 0 := by
    have := roundHalfEven_intCast 0
    simpa using this
  rw [this]
  simp

theorem roundF32_nonneg {v : ℚ} (h : 0 ≤ v) : 0 ≤ roundF32 v := by
  unfold roundF32
  rw [if_pos h]
  have h0 : (0 : ℚ) ≤ v / ulp v := div_nonneg h (ulp_pos v).le
  have : (0 : Int) ≤ roundHalfEven (v / ulp v) := le_roundHalfEven (by simpa using h0)
  exact mul_nonneg (by exact_mod_cast this) (ulp_pos v).le

theorem roundF32_neg (v : ℚ) : roundF32 (-v) = -roundF32 v := by
  rcases lt_trichotomy v 0 with h | h | h
  · unfold roundF32
    rw [if_pos (by linarith), if_neg (by linarith)]
    simp
  · subst h
    simp [roundF32_zero]
  · unfold roundF32
    rw [if_neg (by linarith), if_pos (by linarith)]
    simp



theorem lt_zpow_binade_succ (v : ℚ) : v < (2 : ℚ) ^ (binade v + 1) := by
  have h1 : v < ((2 : ℕ) : ℚ) ^ (Int.log 2 v + 1) := Int.lt_zpow_succ_log_self (by norm_num) v
  have h2 : ((2 : ℕ) : ℚ) ^ (Int.log 2 v + 1) ≤ (2 : ℚ) ^ (binade v + 1) := by
    rw [Nat.cast_ofNat]
    apply zpow_le_zpow_right₀ (by norm_num)
    unfold binade
    have := le_max_left (Int.log 2 v) (-126)
    omega
  exact lt_of_lt_of_le h1 h2

theorem zpow_binade_le {v : ℚ} (hv : 0 < v) (hn : -126 ≤ Int.log 2 v) :
    (2 : ℚ) ^ binade v ≤ v := by
  have h1 : ((2 : ℕ) : ℚ) ^ Int.log 2 v ≤ v := Int.zpow_log_le_self (by norm_num) hv
  rw [Nat.cast_ofNat] at h1
  unfold binade
  rw [max_eq_left hn]
  exact h1

theorem binade_mono {a b : ℚ} (ha : 0 < a) (h : a ≤ b) : binade a ≤ binade b := by
  unfold binade
  exact max_le_max (Int.log_mono_right ha h) (le_refl _)

theorem div_ulp_lt {v : ℚ} : v / ulp v < (2 : ℚ) ^ (24 : ℤ) := by
  rw [div_lt_iff₀ (ulp_pos v)]
  unfold ulp
  rw [← zpow_add₀ (by norm_num : (2 : ℚ) ≠ 0)]
  have : (24 : ℤ) + (binade v - 23) = binade v + 1 := by ring
  rw [this]
  exact lt_zpow_binade_succ v

theorem le_div_ulp {v : ℚ} (hv : 0 < v) (hn : -126 ≤ Int.log 2 v) :
    (2 : ℚ) ^ (23 : ℤ) ≤ v / ulp v := by
  rw [le_div_iff₀ (ulp_pos v)]
  unfold ulp
  rw [← zpow_add₀ (by norm_num : (2 : ℚ) ≠ 0)]
  have : (23 : ℤ) + (binade v - 23) = binade v := by ring
  rw [this]
  exact zpow_binade_le hv hn

/-- On non-negative values the rounding is monotone. -/
theorem roundF32_mono_of_nonneg {a b : ℚ} (ha : 0 ≤ a) (h : a ≤ b) :
    roundF32 a ≤ roundF32 b := by
  have hb : 0 ≤ b := le_trans ha h
  rcases eq_or_lt_of_le ha with h0 | hpos
  · rw [← h0, roundF32_zero]
    exact roundF32_nonneg hb
  have hbpos : 0 < b := lt_of_lt_of_le hpos h
  have hk := binade_mono hpos h
  unfold roundF32
  rw [if_pos ha, if_pos hb]
  rcases eq_or_lt_of_le hk with heq | hlt
  · have hu : ulp a = ulp b := by unfold ulp; rw [heq]
    rw [hu]
    have hdiv : a / ulp b ≤ b / ulp b := div_le_div_of_nonneg_right h (ulp_pos b).le
    have := roundHalfEven_mono hdiv
    exact mul_le_mul_of_nonneg_right (by exact_mod_cast this) (ulp_pos b).le
  · -- different binades: `roundF32 a ≤ 2 ^ (binade a + 1) ≤ 2 ^ binade b ≤ roundF32 b`
    have hlogb : -126 ≤ Int.log 2 b := by
      unfold binade at hlt
      by_contra hcon
      rw [max_eq_right (le_of_lt (not_le.mp hcon))] at hlt
      have := le_max_right (Int.log 2 a) (-126)
      omega
    have h1 : roundHalfEven (a / ulp a) ≤ 2 ^ 24 := by
      apply roundHalfEven_le
      have := @div_ulp_lt a
      have h24 : ((2 ^ 24 : Int) : ℚ) = (2 : ℚ) ^ (24 : ℤ) := by norm_num
      rw [h24]
      exact this.le
    have h2 : (2 ^ 23 : Int) ≤ roundHalfEven (b / ulp b) := by
      apply le_roundHalfEven
      have := le_div_ulp hbpos hlogb
      have h23 : ((2 ^ 23 : Int) : ℚ) = (2 : ℚ) ^ (23 : ℤ) := by norm_num
      rw [h23]
      exact this
    have h1q : (roundHalfEven (a / ulp a) : ℚ) ≤ (2 : ℚ) ^ (24 : ℤ) := by
      have e : (2 : ℚ) ^ (24 : ℤ) = ((2 ^ 24 : Int) : ℚ) := by norm_num
      rw [e]
      exact_mod_cast h1
    have h2q : (2 : ℚ) ^ (23 : ℤ) ≤ (roundHalfEven (b / ulp b) : ℚ) := by
      have e : (2 : ℚ) ^ (23 : ℤ) = ((2 ^ 23 : Int) : ℚ) := by norm_num
      rw [e]
      exact_mod_cast h2
    calc (roundHalfEven (a / ulp a) : ℚ) * ulp a
        ≤ (2 : ℚ) ^ (24 : ℤ) * ulp a := mul_le_mul_of_nonneg_right h1q (ulp_pos a).le
      _ = (2 : ℚ) ^ (binade a + 1) := by
          unfold ulp
          rw [← zpow_add₀ (by norm_num : (2 : ℚ) ≠ 0)]
          congr 1; ring
      _ ≤ (2 : ℚ) ^ binade b := zpow_le_zpow_right₀ (by norm_num) (by omega)
      _ = (2 : ℚ) ^ (23 : ℤ) * ulp b := by
          unfold ulp
          rw [← zpow_add₀ (by norm_num : (2 : ℚ) ≠ 0)]
          congr 1; ring
      _ ≤ (roundHalfEven (b / ulp b) : ℚ) * ulp b :=
          mul_le_mul_of_nonneg_right h2q (ulp_pos b).le

/-- Rounding to binary32 is monotone. -/
theorem roundF32_mono {a b : ℚ} (h : a ≤ b) : roundF32 a ≤ roundF32 b := by
  rcases le_or_lt 0 a with ha | ha
  · exact roundF32_mono_of_nonneg ha h
  · rcases le_or_lt 0 b with hb | hb
    · have h1 : roundF32 a ≤ 0 := by
        have := @roundF32_nonneg (-a) (by linarith)
        rw [roundF32_neg] at this
        linarith
      exact le_trans h1 (roundF32_nonneg hb)
    · have := @roundF32_mono_of_nonneg (-b) (-a) (by linarith) (by linarith)
      rw [roundF32_neg, roundF32_neg] at this
      linarith

/-- A positive dyadic value with a mantissa below `2 ^ 24` and an exponent of at least
-149 is a binary32 value: rounding leaves it unchanged. -/
theorem roundF32_dyadic_pos (n : ℕ) (j : ℕ) (hn0 : 0 < n) (hn : n < 2 ^ 24) (hj : j ≤ 149) :
    roundF32 ((n : ℚ) / 2 ^ j) = (n : ℚ) / 2 ^ j := by
  obtain ⟨v, hvdef⟩ : ∃ v : ℚ, v = (n : ℚ) / 2 ^ j := ⟨_, rfl⟩
  rw [← hvdef]
  have hv : (0 : ℚ) < v := by rw [hvdef]; positivity
  -- the exponent of the spacing is at most `23 - j`
  have hlog : Int.log 2 v < 24 - (j : ℤ) := by
    rw [← Int.lt_zpow_iff_log_lt (by norm_num) hv, Nat.cast_ofNat]
    rw [hvdef, div_lt_iff₀ (by positivity)]
    have h24 : (2 : ℚ) ^ (24 - (j : ℤ)) * 2 ^ j = 2 ^ (24 : ℕ) := by
      rw [← zpow_natCast (2 : ℚ) j, ← zpow_add₀ (by norm_num : (2 : ℚ) ≠ 0)]
      have : (24 - (j : ℤ)) + (j : ℤ) = ((24 : ℕ) : ℤ) := by push_cast; ring
      rw [this, zpow_natCast]
    rw [h24]
    exact_mod_cast hn
  have hk : binade v + (j : ℤ) ≤ 23 := by
    unfold binade
    rcases le_total (Int.log 2 v) (-126) with h | h
    · rw [max_eq_right h]; omega
    · rw [max_eq_left h]; omega
  obtain ⟨d, hd⟩ : ∃ d : ℕ, (d : ℤ) = 23 - (j : ℤ) - binade v :=
    ⟨(23 - (j : ℤ) - binade v).toNat, Int.toNat_of_nonneg (by omega)⟩
  have hone : (2 : ℚ) ^ (d : ℤ) * (2 : ℚ) ^ (binade v - 23) * (2 : ℚ) ^ (j : ℤ) = 1 := by
    rw [← zpow_add₀ (by norm_num : (2 : ℚ) ≠ 0), ← zpow_add₀ (by norm_num : (2 : ℚ) ≠ 0)]
    have : (d : ℤ) + (binade v - 23) + (j : ℤ) = 0 := by rw [hd]; ring
    rw [this, zpow_zero]
  have hdiv : v / ulp v = ((n * 2 ^ d : ℕ) : ℤ) := by
    rw [div_eq_iff (ulp_pos v).ne']
    unfold ulp
    nth_rewrite 1 [hvdef]
    rw [div_eq_iff (by positivity)]
    push_cast
    rw [← zpow_natCast (2 : ℚ) d, ← zpow_natCast (2 : ℚ) j]
    calc (n : ℚ) = n * ((2 : ℚ) ^ (d : ℤ) * (2 : ℚ) ^ (binade v - 23) * (2 : ℚ) ^ (j : ℤ)) := by
          rw [hone, mul_one]
      _ = (n : ℚ) * 2 ^ (d : ℤ) * 2 ^ (binade v - 23) * 2 ^ (j : ℤ) := by ring
  unfold roundF32
  rw [if_pos hv.le, hdiv, roundHalfEven_intCast, ← hdiv]
  exact div_mul_cancel₀ v (ulp_pos v).ne'

/-- A dyadic value with a mantissa below `2 ^ 24` in absolute value and an exponent of
at least -149 is a binary32 value: rounding leaves it unchanged. -/
theorem roundF32_dyadic (v : ℚ) (n : Int) (j : ℕ) (hv : v = (n : ℚ) / 2 ^ j)
    (hn : |n| < 2 ^ 24) (hj : j ≤ 149) : roundF32 v = v := by
  rcases lt_trichotomy n 0 with h | h | h
  · obtain ⟨m, hm⟩ : ∃ m : ℕ, (m : Int) = -n := ⟨(-n).toNat, Int.toNat_of_nonneg (by omega)⟩
    have hm0 : 0 < m := by omega
    have hm24 : m < 2 ^ 24 := by
      have : |n| = -n := abs_of_neg h
      have h2 : ((m : Int)) < 2 ^ 24 := by rw [hm, ← this]; exact hn
      exact_mod_cast h2
    have hneg : v = -((m : ℚ) / 2 ^ j) := by
      have : (n : ℚ) = -(m : ℚ) := by
        have : ((m : Int) : ℚ) = ((-n : Int) : ℚ) := by rw [hm]
        push_cast at this
        linarith
      rw [hv, this, neg_div]
    rw [hneg, roundF32_neg, roundF32_dyadic_pos m j hm0 hm24 hj]
  · rw [hv, h]
    simp [roundF32_zero]
  · obtain ⟨m, hm⟩ : ∃ m : ℕ, (m : Int) = n := ⟨n.toNat, Int.toNat_of_nonneg (by omega)⟩
    have hm0 : 0 < m := by omega
    have hm24 : m < 2 ^ 24 := by
      have : |n| = n := abs_of_pos h
      have h2 : ((m : Int)) < 2 ^ 24 := by rw [hm, ← this]; exact hn
      exact_mod_cast h2
    have hpos : v = (m : ℚ) / 2 ^ j := by
      have : (n : ℚ) = (m : ℚ) := by
        have : ((m : Int) : ℚ) = ((n : Int) : ℚ) := by rw [hm]
        push_cast at this
        linarith
      rw [hv, this]
    rw [hpos, roundF32_dyadic_pos m j hm0 hm24 hj]

/-- An integer below `2 ^ 24` in absolute value converts to `float` without rounding. -/
theorem i2f_eq (n : Int) (hn : |n| < 2 ^ 24) : i2f n = n := by
  unfold i2f
  exact roundF32_dyadic _ n 0 (by simp) hn (by decide)

/-- Rounding stays between two binary32 values that enclose the exact result. -/
theorem roundF32_between {v lo hi : ℚ} (hlo : roundF32 lo = lo) (hhi : roundF32 hi = hi)
    (h1 : lo ≤ v) (h2 : v ≤ hi) : lo ≤ roundF32 v ∧ roundF32 v ≤ hi := by
  constructor
  · rw [← hlo]; exact roundF32_mono h1
  · rw [← hhi]; exact roundF32_mono h2

theorem roundF32_between_dyadic {v : ℚ} (a b : Int) (j : ℕ) (ha : |a| < 2 ^ 24)
    (hb : |b| < 2 ^ 24) (hj : j ≤ 149) (h1 : (a : ℚ) / 2 ^ j ≤ v) (h2 : v ≤ (b : ℚ) / 2 ^ j) :
    (a : ℚ) / 2 ^ j ≤ roundF32 v ∧ roundF32 v ≤ (b : ℚ) / 2 ^ j :=
  roundF32_between (roundF32_dyadic _ a j rfl ha hj) (roundF32_dyadic _ b j rfl hb hj) h1 h2
/-! ## Conversions: basic facts -/

theorem truncQ_of_nonneg {v : ℚ} (h : 0 ≤ v) : truncQ v = ⌊v⌋ := by
  unfold truncQ; rw [if_pos h]

theorem truncQ_of_neg {v : ℚ} (h : v < 0) : truncQ v = ⌈v⌉ := by
  unfold truncQ; rw [if_neg (not_le.mpr h)]

theorem truncQ_nonneg {v : ℚ} (h : 0 ≤ v) : 0 ≤ truncQ v := by
  rw [truncQ_of_nonneg h]; exact Int.floor_nonneg.mpr h

theorem truncQ_bounds {v : ℚ} {a b : Int} (ha : a ≤ 0) (hb : 0 ≤ b)
    (h1 : (a : ℚ) ≤ v) (h2 : v ≤ b) : a ≤ truncQ v ∧ truncQ v ≤ b := by
  rcases le_or_lt 0 v with h | h
  · rw [truncQ_of_nonneg h]
    refine ⟨le_trans ha (Int.floor_nonneg.mpr h), ?_⟩
    have : (⌊v⌋ : ℚ) ≤ b := le_trans (Int.floor_le v) h2
    exact_mod_cast this
  · rw [truncQ_of_neg h]
    refine ⟨?_, le_trans (Int.ceil_le.mpr (by simpa using h.le)) hb⟩
    have : (a : ℚ) ≤ ⌈v⌉ := le_trans h1 (Int.le_ceil v)
    exact_mod_cast this

theorem toInt32_of_bounds {v : ℚ} (h1 : ((INT32_MIN : Int) : ℚ) ≤ v)
    (h2 : v ≤ ((INT32_MAX : Int) : ℚ)) : toInt32 v = some (truncQ v) := by
  have hb := @truncQ_bounds v INT32_MIN INT32_MAX (by decide) (by decide) h1 h2
  unfold toInt32
  rw [if_pos hb]

theorem toInt32_eq_some {v : ℚ} {z : Int} (h : toInt32 v = some z) :
    z = truncQ v ∧ INT32_MIN ≤ z ∧ z ≤ INT32_MAX := by
  unfold toInt32 at h
  split_ifs at h with hb
  · cases h
    exact ⟨rfl, hb.1, hb.2⟩

/-! ## `writeMnistBuffer`: what the body computes -/

theorem index_in_bounds {xi yi : Int} (h : inGrid xi yi) :
    0 ≤ xi + yi * MNIST_W ∧ xi + yi * MNIST_W < MNIST_W * MNIST_H := by
  unfold inGrid MNIST_W MNIST_H at h
  unfold MNIST_W MNIST_H
  omega

theorem writeMnistBuffer_unfold (buf : List Int) (tpX tpY : ℚ) :
    writeMnistBuffer buf tpX tpY =
      (toInt32 (scaledX tpX)).bind fun xInBuff =>
        (toInt32 (scaledY tpY)).bind fun yInBuff =>
          if xInBuff < 0 ∨ MNIST_W ≤ xInBuff then some buf
          else if yInBuff < 0 ∨ MNIST_H ≤ yInBuff then some buf
          else if 0 ≤ xInBuff + yInBuff * MNIST_W ∧
              xInBuff + yInBuff * MNIST_W < MNIST_W * MNIST_H then
            some (buf.set (xInBuff + yInBuff * MNIST_W).toNat 1)
          else none := rfl

theorem writeMnistBuffer_of_casts (buf : List Int) (tpX tpY : ℚ) {xi yi : Int}
    (hx : toInt32 (scaledX tpX) = some xi) (hy : toInt32 (scaledY tpY) = some yi) :
    writeMnistBuffer buf tpX tpY =
      some (if inGrid xi yi then buf.set (xi + yi * MNIST_W).toNat 1 else buf) := by
  rw [writeMnistBuffer_unfold, hx, hy]
  simp only [Option.some_bind]
  by_cases hg : inGrid xi yi
  · have hb := index_in_bounds hg
    rw [if_pos hg]
    unfold inGrid at hg
    rw [if_neg (by omega), if_neg (by omega), if_pos hb]
  · rw [if_neg hg]
    unfold inGrid at hg
    by_cases h1 : xi < 0 ∨ MNIST_W ≤ xi
    · rw [if_pos h1]
    · rw [if_neg h1, if_pos (by omega)]

theorem writeMnistBuffer_eq_some {buf buf' : List Int} {tpX tpY : ℚ}
    (h : writeMnistBuffer buf tpX tpY = some buf') :
    ∃ xi yi, toInt32 (scaledX tpX) = some xi ∧ toInt32 (scaledY tpY) = some yi ∧
      buf' = if inGrid xi yi then buf.set (xi + yi * MNIST_W).toNat 1 else buf := by
  cases hx : toInt32 (scaledX tpX) with
  | none =>
    rw [writeMnistBuffer_unfold, hx] at h
    simp at h
  | some xi =>
    cases hy : toInt32 (scaledY tpY) with
    | none =>
      rw [writeMnistBuffer_unfold, hx, hy] at h
      simp at h
    | some yi =>
      rw [writeMnistBuffer_of_casts buf tpX tpY hx hy] at h
      exact ⟨xi, yi, rfl, rfl, (Option.some.inj h).symm⟩

/-! ## `run`: the loop over the classes -/

theorem run_showResult_eq (output : TfLiteTensor) :
    run_showResult output = (List.range 10).foldl (showStep output) (0, 0) := rfl

theorem showLoop_succ (output : TfLiteTensor) (n : Nat) :
    (List.range (n + 1)).foldl (showStep output) (0, 0) =
      showStep output ((List.range n).foldl (showStep output) (0, 0)) n := by
  rw [List.range_succ, List.foldl_append]
  rfl

/-- The invariant of the loop after `n` iterations. -/
theorem showLoop_inv (output : TfLiteTensor) (n : Nat) :
    0 ≤ ((List.range n).foldl (showStep output) (0, 0)).2 ∧
    (∀ c, c < n → score output c ≤ ((List.range n).foldl (showStep output) (0, 0)).2) ∧
    (((List.range n).foldl (showStep output) (0, 0) = (0, 0) ∧
        ∀ c, c < n → score output c ≤ 0) ∨
     (((List.range n).foldl (showStep output) (0, 0)).1 < n ∧
      score output ((List.range n).foldl (showStep output) (0, 0)).1 =
        ((List.range n).foldl (showStep output) (0, 0)).2 ∧
      0 < ((List.range n).foldl (showStep output) (0, 0)).2 ∧
      ∀ c, c < ((List.range n).foldl (showStep output) (0, 0)).1 →
        score output c < ((List.range n).foldl (showStep output) (0, 0)).2)) := by
  induction n with
  | zero => simp
  | succ n ih =>
    rw [showLoop_succ]
    generalize (List.range n).foldl (showStep output) (0, 0) = acc at ih
    obtain ⟨h0, hle, hcase⟩ := ih
    unfold showStep
    by_cases hgt : score output n > acc.2
    · rw [if_pos hgt]
      refine ⟨le_of_lt (lt_of_le_of_lt h0 hgt), ?_, Or.inr ⟨Nat.lt_succ_self n, rfl, ?_, ?_⟩⟩
      · intro c hc
        rcases Nat.lt_succ_iff_lt_or_eq.mp hc with h | h
        · exact le_of_lt (lt_of_le_of_lt (hle c h) hgt)
        · rw [h]
      · exact lt_of_le_of_lt h0 hgt
      · intro c hc
        exact lt_of_le_of_lt (hle c hc) hgt
    · rw [if_neg hgt]
      have hn : score output n ≤ acc.2 := not_lt.mp hgt
      refine ⟨h0, ?_, ?_⟩
      · intro c hc
        rcases Nat.lt_succ_iff_lt_or_eq.mp hc with h | h
        · exact hle c h
        · rw [h]; exact hn
      · rcases hcase with ⟨he, hz⟩ | ⟨h1, h2, h3, h4⟩
        · refine Or.inl ⟨he, ?_⟩
          intro c hc
          rcases Nat.lt_succ_iff_lt_or_eq.mp hc with h | h
          · exact hz c h
          · rw [h]
            have : acc.2 = 0 := by rw [he]
            rw [← this]; exact hn
        · exact Or.inr ⟨Nat.lt_succ_of_lt h1, h2, h3, h4⟩

theorem run_maxIndex_of_pos (output : TfLiteTensor)
    (h : ∃ c, c < 10 ∧ 0 < score output c) :
    run_maxIndex output < 10 ∧
    (∀ c, c < 10 → score output c ≤ score output (run_maxIndex output)) ∧
    (∀ c, c < run_maxIndex output → score output c < score output (run_maxIndex output)) := by
  obtain ⟨_, hle, hcase⟩ := showLoop_inv output 10
  rw [← run_showResult_eq] at hle hcase
  unfold run_maxIndex
  rcases hcase with ⟨_, hz⟩ | ⟨h1, h2, _, h4⟩
  · obtain ⟨c, hc, hpos⟩ := h
    exact absurd (hz c hc) (not_le.mpr hpos)
  · rw [h2]
    exact ⟨h1, hle, h4⟩

theorem run_maxIndex_of_nonpos (output : TfLiteTensor)
    (h : ∀ c, c < 10 → score output c ≤ 0) : run_maxIndex output = 0 := by
  obtain ⟨_, hle, hcase⟩ := showLoop_inv output 10
  rw [← run_showResult_eq] at hle hcase
  unfold run_maxIndex
  rcases hcase with ⟨he, _⟩ | ⟨h1, h2, h3, _⟩
  · rw [he]
  · have := h _ h1
    rw [h2] at this
    exact absurd this (not_le.mpr h3)

/-! ## The main loop: one lemma per branch -/

theorem setPrevious_of_casts (buf : List Int) (tpX tpY : ℚ) (a : Option Action) (w : Bool)
    {px py : Int} (hx : toInt32 tpX = some px) (hy : toInt32 tpY = some py) :
    setPrevious buf tpX tpY a w =
      some { state := ⟨buf, px, py⟩, action := a, rasterized := w, halted := false } := by
  unfold setPrevious
  rw [hx, hy]
  rfl

theorem setPrevious_eq_some {buf : List Int} {tpX tpY : ℚ} {a : Option Action} {w : Bool}
    {r : Tick} (h : setPrevious buf tpX tpY a w = some r) :
    ∃ px py, toInt32 tpX = some px ∧ toInt32 tpY = some py ∧
      r = { state := ⟨buf, px, py⟩, action := a, rasterized := w, halted := false } := by
  cases hx : toInt32 tpX with
  | none =>
    unfold setPrevious at h
    rw [hx] at h
    simp at h
  | some px =>
    cases hy : toInt32 tpY with
    | none =>
      unfold setPrevious at h
      rw [hx, hy] at h
      simp at h
    | some py =>
      rw [setPrevious_of_casts buf tpX tpY a w hx hy] at h
      exact ⟨px, py, rfl, rfl, (Option.some.inj h).symm⟩

theorem tick_rejected (lcd : LcdIli9341SPI) (itp : MicroInterpreter) (st : State)
    (s : TouchSample) (h : ¬ accepted s) :
    tick lcd itp st s =
      some { state := ⟨st.s_mnistBuffer, -1, -1⟩, action := none, rasterized := false,
             halted := false } := by
  unfold accepted at h
  unfold tick
  rw [if_neg h]

theorem tick_near (lcd : LcdIli9341SPI) (itp : MicroInterpreter) (st : State)
    (s : TouchSample) (ha : accepted s) (hp : st.tpXprevious ≠ -1)
    (hn : |fsub (screenX lcd s) (i2f st.tpXprevious)| < 10 ∧
          |fsub (screenY lcd s) (i2f st.tpYprevious)| < 10) :
    tick lcd itp st s =
      match writeMnistBuffer st.s_mnistBuffer (screenX lcd s) (screenY lcd s) with
      | none => none
      | some buf => setPrevious buf (screenX lcd s) (screenY lcd s) none true := by
  unfold accepted at ha
  unfold tick
  rw [if_pos ha]
  simp only []
  rw [if_pos hp, if_pos hn]

theorem tick_far (lcd : LcdIli9341SPI) (itp : MicroInterpreter) (st : State)
    (s : TouchSample) (ha : accepted s) (hp : st.tpXprevious ≠ -1)
    (hf : ¬ (|fsub (screenX lcd s) (i2f st.tpXprevious)| < 10 ∧
             |fsub (screenY lcd s) (i2f st.tpYprevious)| < 10)) :
    tick lcd itp st s =
      setPrevious st.s_mnistBuffer (screenX lcd s) (screenY lcd s) none false := by
  unfold accepted at ha
  unfold tick
  rw [if_pos ha]
  simp only []
  rw [if_pos hp, if_neg hf]

theorem tick_clear (lcd : LcdIli9341SPI) (itp : MicroInterpreter) (st : State)
    (s : TouchSample) (ha : accepted s) (hp : st.tpXprevious = -1)
    (hc : i2f (lcd.WIDTH - 80) < screenX lcd s ∧ screenY lcd s < 50) :
    tick lcd itp st s =
      setPrevious (reset st.s_mnistBuffer) (screenX lcd s) (screenY lcd s)
        (some Action.Reset) false := by
  unfold accepted at ha
  unfold tick
  rw [if_pos ha]
  simp only []
  rw [if_neg (not_not.mpr hp), if_pos hc]

theorem tick_run (lcd : LcdIli9341SPI) (itp : MicroInterpreter) (st : State)
    (s : TouchSample) (ha : accepted s) (hp : st.tpXprevious = -1)
    (hc : ¬ (i2f (lcd.WIDTH - 80) < screenX lcd s ∧ screenY lcd s < 50))
    (hr : i2f (lcd.WIDTH - 80) < screenX lcd s ∧
          i2f (lcd.HEIGHT - 50) < screenY lcd s) :
    tick lcd itp st s =
      match (run itp st.s_mnistBuffer).maxIndex with
      | none =>
        some { state := ⟨(run itp st.s_mnistBuffer).s_mnistBuffer,
                         st.tpXprevious, st.tpYprevious⟩,
               action := some Action.Infer, rasterized := false, halted := true }
      | some _ =>
        setPrevious (run itp st.s_mnistBuffer).s_mnistBuffer (screenX lcd s)
          (screenY lcd s) (some Action.Infer) false := by
  unfold accepted at ha
  unfold tick
  rw [if_pos ha]
  simp only []
  rw [if_neg (not_not.mpr hp), if_neg hc, if_pos hr]

theorem tick_idle (lcd : LcdIli9341SPI) (itp : MicroInterpreter) (st : State)
    (s : TouchSample) (ha : accepted s) (hp : st.tpXprevious = -1)
    (hc : ¬ (i2f (lcd.WIDTH - 80) < screenX lcd s ∧ screenY lcd s < 50))
    (hr : ¬ (i2f (lcd.WIDTH - 80) < screenX lcd s ∧
             i2f (lcd.HEIGHT - 50) < screenY lcd s)) :
    tick lcd itp st s =
      setPrevious st.s_mnistBuffer (screenX lcd s) (screenY lcd s) none false := by
  unfold accepted at ha
  unfold tick
  rw [if_pos ha]
  simp only []
  rw [if_neg (not_not.mpr hp), if_neg hc, if_neg hr]

theorem run_s_mnistBuffer (itp : MicroInterpreter) (buf : List Int) :
    (run itp buf).s_mnistBuffer = buf := by
  unfold run
  dsimp only
  split <;> rfl

/-- Every way an iteration can end. -/
theorem tick_cases {lcd : LcdIli9341SPI} {itp : MicroInterpreter} {st : State}
    {s : TouchSample} {r : Tick} (h : tick lcd itp st s = some r) :
    (¬ accepted s ∧
      r = { state := ⟨st.s_mnistBuffer, -1, -1⟩, action := none, rasterized := false,
            halted := false }) ∨
    (accepted s ∧ ∃ px py, toInt32 (screenX lcd s) = some px ∧
        toInt32 (screenY lcd s) = some py ∧
      ((st.tpXprevious ≠ -1 ∧ near lcd st s ∧ ∃ buf,
          writeMnistBuffer st.s_mnistBuffer (screenX lcd s) (screenY lcd s) = some buf ∧
          r = { state := ⟨buf, px, py⟩, action := none, rasterized := true,
                halted := false }) ∨
       (st.tpXprevious ≠ -1 ∧ ¬ near lcd st s ∧
          r = { state := ⟨st.s_mnistBuffer, px, py⟩, action := none, rasterized := false,
                halted := false }) ∨
       (st.tpXprevious = -1 ∧ inClear lcd s ∧
          r = { state := ⟨reset st.s_mnistBuffer, px, py⟩, action := some Action.Reset,
                rasterized := false, halted := false }) ∨
       (st.tpXprevious = -1 ∧ ¬ inClear lcd s ∧ inRun lcd s ∧
          r = { state := ⟨st.s_mnistBuffer, px, py⟩, action := some Action.Infer,
                rasterized := false, halted := false }) ∨
       (st.tpXprevious = -1 ∧ ¬ inClear lcd s ∧ ¬ inRun lcd s ∧
          r = { state := ⟨st.s_mnistBuffer, px, py⟩, action := none, rasterized := false,
                halted := false }))) ∨
    (accepted s ∧ st.tpXprevious = -1 ∧ ¬ inClear lcd s ∧ inRun lcd s ∧
      (run itp st.s_mnistBuffer).maxIndex = none ∧
      r = { state := ⟨st.s_mnistBuffer, st.tpXprevious, st.tpYprevious⟩,
            action := some Action.Infer, rasterized := false, halted := true }) := by
  by_cases ha : accepted s
  · by_cases hp : st.tpXprevious = -1
    · by_cases hc : inClear lcd s
      · rw [tick_clear lcd itp st s ha hp hc] at h
        obtain ⟨px, py, hx, hy, hr⟩ := setPrevious_eq_some h
        exact Or.inr (Or.inl ⟨ha, px, py, hx, hy, Or.inr (Or.inr (Or.inl ⟨hp, hc, hr⟩))⟩)
      · by_cases hr : inRun lcd s
        · rw [tick_run lcd itp st s ha hp hc hr, run_s_mnistBuffer] at h
          cases hm : (run itp st.s_mnistBuffer).maxIndex with
          | none =>
            rw [hm] at h
            exact Or.inr (Or.inr ⟨ha, hp, hc, hr, rfl, (Option.some.inj h).symm⟩)
          | some m =>
            rw [hm] at h
            obtain ⟨px, py, hx, hy, hr'⟩ := setPrevious_eq_some h
            exact Or.inr (Or.inl ⟨ha, px, py, hx, hy,
              Or.inr (Or.inr (Or.inr (Or.inl ⟨hp, hc, hr, hr'⟩)))⟩)
        · rw [tick_idle lcd itp st s ha hp hc hr] at h
          obtain ⟨px, py, hx, hy, hr'⟩ := setPrevious_eq_some h
          exact Or.inr (Or.inl ⟨ha, px, py, hx, hy,
            Or.inr (Or.inr (Or.inr (Or.inr ⟨hp, hc, hr, hr'⟩)))⟩)
    · by_cases hn : near lcd st s
      · rw [tick_near lcd itp st s ha hp hn] at h
        cases hw : writeMnistBuffer st.s_mnistBuffer (screenX lcd s)
            (screenY lcd s) with
        | none =>
          rw [hw] at h
          simp at h
        | some buf =>
          rw [hw] at h
          obtain ⟨px, py, hx, hy, hr⟩ := setPrevious_eq_some h
          exact Or.inr (Or.inl ⟨ha, px, py, hx, hy, Or.inl ⟨hp, hn, buf, rfl, hr⟩⟩)
      · rw [tick_far lcd itp st s ha hp hn] at h
        obtain ⟨px, py, hx, hy, hr⟩ := setPrevious_eq_some h
        exact Or.inr (Or.inl ⟨ha, px, py, hx, hy, Or.inr (Or.inl ⟨hp, hn, hr⟩)⟩)
  · rw [tick_rejected lcd itp st s ha] at h
    exact Or.inl ⟨ha, (Option.some.inj h).symm⟩

/-! ## The float pipeline of `writeMnistBuffer` -/

theorem abs_lt_pow24 {n : Int} (h1 : -16777216 < n) (h2 : n < 16777216) : |n| < 2 ^ 24 :=
  abs_lt.mpr ⟨by norm_num; exact h1, by norm_num; exact h2⟩

theorem roundF32_intCast (n : Int) (h1 : -16777216 < n) (h2 : n < 16777216) :
    roundF32 n = n :=
  i2f_eq n (abs_lt_pow24 h1 h2)

theorem scaledX_eq (t : ℚ) :
    scaledX t = roundF32 (roundF32 (roundF32 (t - 100) / 100) * 28) := by
  unfold scaledX fmul fdiv fsub
  rw [i2f_eq AREA_X0 (abs_lt_pow24 (by decide) (by decide)),
    i2f_eq (AREA_X1 - AREA_X0) (abs_lt_pow24 (by decide) (by decide)),
    i2f_eq MNIST_W (abs_lt_pow24 (by decide) (by decide))]
  norm_num [AREA_X0, AREA_X1, MNIST_W]

theorem scaledY_eq (t : ℚ) :
    scaledY t = roundF32 (roundF32 (roundF32 (t - 50) / 100) * 28) := by
  unfold scaledY fmul fdiv fsub
  rw [i2f_eq AREA_Y0 (abs_lt_pow24 (by decide) (by decide)),
    i2f_eq (AREA_Y1 - AREA_Y0) (abs_lt_pow24 (by decide) (by decide)),
    i2f_eq MNIST_H (abs_lt_pow24 (by decide) (by decide))]
  norm_num [AREA_Y0, AREA_Y1, MNIST_H]

/-- Bounds through the division by 100 and the product with 28 of lines 154-157: the
bounds `a1`, `b1`, `a2`, `b2` are binary32 values. -/
theorem scale_between {d a1 b1 a2 b2 : ℚ} (ha1 : roundF32 a1 = a1) (hb1 : roundF32 b1 = b1)
    (ha2 : roundF32 a2 = a2) (hb2 : roundF32 b2 = b2)
    (h1 : a1 ≤ d / 100) (h2 : d / 100 ≤ b1) (h3 : a2 ≤ a1 * 28) (h4 : b1 * 28 ≤ b2) :
    a2 ≤ roundF32 (roundF32 (d / 100) * 28) ∧ roundF32 (roundF32 (d / 100) * 28) ≤ b2 := by
  obtain ⟨hl, hu⟩ := roundF32_between ha1 hb1 h1 h2
  exact roundF32_between ha2 hb2 (by linarith) (by linarith)

theorem scaled_defined {t c : ℚ} (h1 : -100 ≤ t - c) (h2 : t - c ≤ 16777166) :
    toInt32 (roundF32 (roundF32 (roundF32 (t - c) / 100) * 28)) =
      some (truncQ (roundF32 (roundF32 (roundF32 (t - c) / 100) * 28))) := by
  have e1 : roundF32 (-100) = -100 := by
    have := roundF32_intCast (-100) (by decide) (by decide)
    simpa using this
  have e2 : roundF32 16777166 = 16777166 := by
    have := roundF32_intCast 16777166 (by decide) (by decide)
    simpa using this
  have e3 : roundF32 (-1) = -1 := by
    have := roundF32_intCast (-1) (by decide) (by decide)
    simpa using this
  have e4 : roundF32 167772 = 167772 := by
    have := roundF32_intCast 167772 (by decide) (by decide)
    simpa using this
  have e5 : roundF32 (-28) = -28 := by
    have := roundF32_intCast (-28) (by decide) (by decide)
    simpa using this
  have e6 : roundF32 4697616 = 4697616 := by
    have := roundF32_intCast 4697616 (by decide) (by decide)
    simpa using this
  obtain ⟨hd1, hd2⟩ := roundF32_between e1 e2 h1 h2
  obtain ⟨hs1, hs2⟩ := @scale_between (roundF32 (t - c)) _ _ _ _ e3 e4 e5 e6
    (by linarith) (by linarith) (by norm_num) (by norm_num)
  apply toInt32_of_bounds
  · unfold INT32_MIN; norm_num; linarith
  · unfold INT32_MAX; norm_num; linarith

/-! ## Definedness on samples of the unit square -/

theorem screen_bounds {x : ℚ} {W : Int} (hx0 : 0 ≤ x) (hx1 : x ≤ 1) (hW0 : 0 ≤ W)
    (hW : W < 16777216) : 0 ≤ fmul x (i2f W) ∧ fmul x (i2f W) ≤ W := by
  have hWq : (0 : ℚ) ≤ W := by exact_mod_cast hW0
  have hi : i2f W = W := i2f_eq W (abs_lt_pow24 (by omega) hW)
  have hr : roundF32 (W : ℚ) = W := hi
  unfold fmul
  rw [hi]
  exact roundF32_between roundF32_zero hr (mul_nonneg hx0 hWq)
    (by have := mul_le_mul_of_nonneg_right hx1 hWq; linarith)

theorem toInt32_screen {x : ℚ} {W : Int} (hx0 : 0 ≤ x) (hx1 : x ≤ 1) (hW0 : 0 ≤ W)
    (hW : W < 16777216) :
    toInt32 (fmul x (i2f W)) = some (truncQ (fmul x (i2f W))) ∧
      0 ≤ truncQ (fmul x (i2f W)) ∧ truncQ (fmul x (i2f W)) ≤ W := by
  obtain ⟨h0, h1⟩ := screen_bounds hx0 hx1 hW0 hW
  have hb := @truncQ_bounds (fmul x (i2f W)) 0 W (le_refl _) hW0 (by simpa using h0) h1
  refine ⟨toInt32_of_bounds ?_ ?_, hb.1, hb.2⟩
  · have : ((INT32_MIN : Int) : ℚ) ≤ 0 := by unfold INT32_MIN; norm_num
    linarith
  · have hWq : (W : ℚ) ≤ ((INT32_MAX : Int) : ℚ) := by
      have : W ≤ INT32_MAX := by unfold INT32_MAX; omega
      exact_mod_cast this
    linarith

theorem writeMnistBuffer_defined (buf : List Int) {tpX tpY : ℚ}
    (hx0 : 0 ≤ tpX) (hx1 : tpX ≤ 16777216) (hy0 : 0 ≤ tpY) (hy1 : tpY ≤ 16777216) :
    ∃ buf', writeMnistBuffer buf tpX tpY = some buf' := by
  have hx : toInt32 (scaledX tpX) = some (truncQ (scaledX tpX)) := by
    rw [scaledX_eq]
    exact scaled_defined (by linarith) (by linarith)
  have hy : toInt32 (scaledY tpY) = some (truncQ (scaledY tpY)) := by
    rw [scaledY_eq]
    exact scaled_defined (by linarith) (by linarith)
  exact ⟨_, writeMnistBuffer_of_casts buf tpX tpY hx hy⟩

theorem tick_defined (lcd : LcdIli9341SPI) (itp : MicroInterpreter) (st : State)
    (s : TouchSample) (hl : lcd.valid) (hs : inUnitSquare s) :
    ∃ r, tick lcd itp st s = some r := by
  obtain ⟨⟨hW0, hW1⟩, hH0, hH1⟩ := hl
  obtain ⟨⟨hx0, hx1⟩, hy0, hy1⟩ := hs
  obtain ⟨hcx, _⟩ := toInt32_screen hx0 hx1 hW0 hW1
  obtain ⟨hcy, _⟩ := toInt32_screen hy0 hy1 hH0 hH1
  have hcx' : toInt32 (screenX lcd s) = some (truncQ (screenX lcd s)) := hcx
  have hcy' : toInt32 (screenY lcd s) = some (truncQ (screenY lcd s)) := hcy
  by_cases ha : accepted s
  · by_cases hp : st.tpXprevious = -1
    · by_cases hc : inClear lcd s
      · rw [tick_clear lcd itp st s ha hp hc, setPrevious_of_casts _ _ _ _ _ hcx' hcy']
        exact ⟨_, rfl⟩
      · by_cases hr : inRun lcd s
        · rw [tick_run lcd itp st s ha hp hc hr]
          cases (run itp st.s_mnistBuffer).maxIndex with
          | none => exact ⟨_, rfl⟩
          | some m =>
            simp only []
            rw [setPrevious_of_casts _ _ _ _ _ hcx' hcy']
            exact ⟨_, rfl⟩
        · rw [tick_idle lcd itp st s ha hp hc hr, setPrevious_of_casts _ _ _ _ _ hcx' hcy']
          exact ⟨_, rfl⟩
    · by_cases hn : near lcd st s
      · rw [tick_near lcd itp st s ha hp hn]
        obtain ⟨hbx0, hbx1⟩ := screen_bounds hx0 hx1 hW0 hW1
        obtain ⟨hby0, hby1⟩ := screen_bounds hy0 hy1 hH0 hH1
        have hWq : (lcd.WIDTH : ℚ) ≤ 16777216 := by
          have : lcd.WIDTH ≤ 16777216 := by omega
          exact_mod_cast this
        have hHq : (lcd.HEIGHT : ℚ) ≤ 16777216 := by
          have : lcd.HEIGHT ≤ 16777216 := by omega
          exact_mod_cast this
        obtain ⟨buf, hb⟩ := @writeMnistBuffer_defined st.s_mnistBuffer
          (screenX lcd s) (screenY lcd s)
          hbx0 (le_trans hbx1 hWq) hby0 (le_trans hby1 hHq)
        rw [hb]
        simp only []
        rw [setPrevious_of_casts _ _ _ _ _ hcx' hcy']
        exact ⟨_, rfl⟩
      · rw [tick_far lcd itp st s ha hp hn, setPrevious_of_casts _ _ _ _ _ hcx' hcy']
        exact ⟨_, rfl⟩
  · rw [tick_rejected lcd itp st s ha]
    exact ⟨_, rfl⟩

/-! ## Lists as arrays -/

theorem getD_set_self (l : List Int) (k : Nat) (v : Int) (h : k < l.length) :
    (l.set k v).getD k 0 = v := by
  rw [List.getD_eq_getElem _ _ (by rw [List.length_set]; exact h), List.getElem_set_self]

theorem getD_set_ne (l : List Int) {k j : Nat} (v : Int) (h : k ≠ j) :
    (l.set k v).getD j 0 = l.getD j 0 := by
  simp only [List.getD_eq_getElem?_getD, List.getElem?_set_ne h]

theorem getD_set_one_of_one (l : List Int) (i k : Nat) (h : l.getD k 0 = 1) :
    (l.set i 1).getD k 0 = 1 := by
  by_cases hik : i = k
  · subst hik
    have hlt : i < l.length := by
      by_contra hge
      rw [List.getD_eq_default _ _ (not_lt.mp hge)] at h
      exact absurd h (by decide)
    exact getD_set_self l i 1 hlt
  · rw [getD_set_ne l 1 hik, h]

theorem reset_length (buf : List Int) : (reset buf).length = 784 := by
  unfold reset
  rw [List.length_replicate]
  decide

theorem reset_getD (buf : List Int) (k : Nat) : (reset buf).getD k 0 = 0 := by
  unfold reset
  by_cases h : k < (List.replicate (MNIST_W * MNIST_H).toNat (0 : Int)).length
  · rw [List.getD_eq_getElem _ _ h, List.getElem_replicate]
  · rw [List.getD_eq_default _ _ (not_lt.mp h)]

/-! ## Evaluating the conversions -/

theorem toInt32_of_truncQ {v : ℚ} {z : Int} (h : truncQ v = z) (h1 : INT32_MIN ≤ z)
    (h2 : z ≤ INT32_MAX) : toInt32 v = some z := by
  unfold toInt32
  rw [h, if_pos ⟨h1, h2⟩]

theorem truncQ_eq_of_nonneg {v : ℚ} (z : Int) (h0 : 0 ≤ v) (h1 : (z : ℚ) ≤ v)
    (h2 : v < z + 1) : truncQ v = z := by
  rw [truncQ_of_nonneg h0]
  exact Int.floor_eq_iff.mpr ⟨h1, h2⟩

theorem truncQ_eq_of_neg {v : ℚ} (z : Int) (h0 : v < 0) (h1 : (z : ℚ) - 1 < v)
    (h2 : v ≤ z) : truncQ v = z := by
  rw [truncQ_of_neg h0]
  exact Int.ceil_eq_iff.mpr ⟨h1, h2⟩

theorem toInt32_eval {v : ℚ} (z : Int) (h0 : 0 ≤ v) (h1 : (z : ℚ) ≤ v) (h2 : v < z + 1)
    (h3 : z ≤ INT32_MAX) : toInt32 v = some z := by
  have hz : truncQ v = z := truncQ_eq_of_nonneg z h0 h1 h2
  have hz0 : 0 ≤ z := by rw [← hz]; exact truncQ_nonneg h0
  exact toInt32_of_truncQ hz (le_trans (by decide) hz0) h3

theorem toInt32_of_between {v : ℚ} (z : Int) (lo hi : ℚ) (h1 : lo ≤ v) (h2 : v ≤ hi)
    (hz : (z : ℚ) ≤ lo) (hz0 : 0 ≤ z) (hz1 : hi < z + 1) (hz2 : z ≤ INT32_MAX) :
    toInt32 v = some z :=
  toInt32_eval z (le_trans (by exact_mod_cast hz0) (le_trans hz h1)) (le_trans hz h1)
    (lt_of_le_of_lt h2 hz1) hz2

theorem toInt32_zero_of_between {v : ℚ} (lo hi : ℚ) (h1 : lo ≤ v) (h2 : v ≤ hi)
    (hlo : -1 < lo) (hhi : hi < 1) : toInt32 v = some 0 := by
  apply toInt32_of_truncQ _ (by decide) (by decide)
  rcases le_or_lt 0 v with h | h
  · exact truncQ_eq_of_nonneg 0 h (by simpa using h) (by norm_num; linarith)
  · exact truncQ_eq_of_neg 0 h (by norm_num; linarith) (by simpa using h.le)

/-! ## Concrete runs on the 320 x 240 panel -/

theorem lcd320x240_valid : lcd320x240.valid := by
  unfold LcdIli9341SPI.valid lcd320x240
  decide

theorem sample_inUnitSquare :
    inUnitSquare sampleA ∧ inUnitSquare sampleB ∧ inUnitSquare sampleC := by
  refine ⟨?_, ?_, ?_⟩ <;> unfold inUnitSquare <;> norm_num [sampleA, sampleB, sampleC]

theorem sampleA_accepted : accepted sampleA := by
  unfold accepted sampleA; norm_num

theorem sampleB_accepted : accepted sampleB := by
  unfold accepted sampleB; norm_num

theorem sampleC_accepted : accepted sampleC := by
  unfold accepted sampleC; norm_num

theorem sampleLeft_accepted : accepted sampleLeft := by
  unfold accepted sampleLeft; norm_num

theorem sampleClear_accepted : accepted sampleClear := by
  unfold accepted sampleClear; norm_num

/-- The product of lines 67-68 when the exact product is a binary32 value. -/
theorem fmul_i2f_eval (x : ℚ) (W n : Int) (j : ℕ) (hW1 : -16777216 < W) (hW2 : W < 16777216)
    (h : x * W = (n : ℚ) / 2 ^ j) (hn : |n| < 2 ^ 24) (hj : j ≤ 149) :
    fmul x (i2f W) = (n : ℚ) / 2 ^ j := by
  unfold fmul
  rw [i2f_eq W (abs_lt_pow24 hW1 hW2), roundF32_dyadic _ n j h hn hj, h]

/-- The difference of line 70 when the exact difference is a binary32 value. -/
theorem fsub_i2f_eval (a : ℚ) (p n : Int) (j : ℕ) (hp1 : -16777216 < p) (hp2 : p < 16777216)
    (h : a - p = (n : ℚ) / 2 ^ j) (hn : |n| < 2 ^ 24) (hj : j ≤ 149) :
    fsub a (i2f p) = (n : ℚ) / 2 ^ j := by
  unfold fsub
  rw [i2f_eq p (abs_lt_pow24 hp1 hp2), roundF32_dyadic _ n j h hn hj, h]

theorem sampleA_point :
    screenX lcd320x240 sampleA = 1285 / 8 ∧ screenY lcd320x240 sampleA = 120 := by
  constructor
  · have := fmul_i2f_eval sampleA.tpX lcd320x240.WIDTH 1285 3 (by decide) (by decide)
      (by norm_num [sampleA, lcd320x240]) (by norm_num) (by decide)
    unfold screenX
    rw [this]; norm_num
  · have := fmul_i2f_eval sampleA.tpY lcd320x240.HEIGHT 120 0 (by decide) (by decide)
      (by norm_num [sampleA, lcd320x240]) (by norm_num) (by decide)
    unfold screenY
    rw [this]; norm_num

theorem sampleB_point :
    screenX lcd320x240 sampleB = 2405 / 16 ∧ screenY lcd320x240 sampleB = 120 := by
  constructor
  · have := fmul_i2f_eval sampleB.tpX lcd320x240.WIDTH 2405 4 (by decide) (by decide)
      (by norm_num [sampleB, lcd320x240]) (by norm_num) (by decide)
    unfold screenX
    rw [this]; norm_num
  · have := fmul_i2f_eval sampleB.tpY lcd320x240.HEIGHT 120 0 (by decide) (by decide)
      (by norm_num [sampleB, lcd320x240]) (by norm_num) (by decide)
    unfold screenY
    rw [this]; norm_num

theorem sampleC_point :
    screenX lcd320x240 sampleC = 80 ∧ screenY lcd320x240 sampleC = 120 := by
  constructor
  · have := fmul_i2f_eval sampleC.tpX lcd320x240.WIDTH 80 0 (by decide) (by decide)
      (by norm_num [sampleC, lcd320x240]) (by norm_num) (by decide)
    unfold screenX
    rw [this]; norm_num
  · have := fmul_i2f_eval sampleC.tpY lcd320x240.HEIGHT 120 0 (by decide) (by decide)
      (by norm_num [sampleC, lcd320x240]) (by norm_num) (by decide)
    unfold screenY
    rw [this]; norm_num

theorem sampleLeft_point :
    screenX lcd320x240 sampleLeft = 395 / 4 ∧ screenY lcd320x240 sampleLeft = 60 := by
  constructor
  · have := fmul_i2f_eval sampleLeft.tpX lcd320x240.WIDTH 395 2 (by decide) (by decide)
      (by norm_num [sampleLeft, lcd320x240]) (by norm_num) (by decide)
    unfold screenX
    rw [this]; norm_num
  · have := fmul_i2f_eval sampleLeft.tpY lcd320x240.HEIGHT 60 0 (by decide) (by decide)
      (by norm_num [sampleLeft, lcd320x240]) (by norm_num) (by decide)
    unfold screenY
    rw [this]; norm_num

theorem sampleClear_point :
    screenX lcd320x240 sampleClear = 288 ∧ screenY lcd320x240 sampleClear = 24 := by
  constructor
  · have := fmul_i2f_eval sampleClear.tpX lcd320x240.WIDTH 288 0 (by decide) (by decide)
      (by norm_num [sampleClear, lcd320x240]) (by norm_num) (by decide)
    unfold screenX
    rw [this]; norm_num
  · have := fmul_i2f_eval sampleClear.tpY lcd320x240.HEIGHT 24 0 (by decide) (by decide)
      (by norm_num [sampleClear, lcd320x240]) (by norm_num) (by decide)
    unfold screenY
    rw [this]; norm_num

/-- The scaled value of lines 154-157 for a point whose first difference is the
binary32 value `d`, between the binary32 values `a2` and `b2`. -/
theorem scaled_between {t c d a1 b1 a2 b2 : ℚ} (hd : roundF32 (t - c) = d)
    (ha1 : roundF32 a1 = a1) (hb1 : roundF32 b1 = b1)
    (ha2 : roundF32 a2 = a2) (hb2 : roundF32 b2 = b2)
    (h1 : a1 ≤ d / 100) (h2 : d / 100 ≤ b1) (h3 : a2 ≤ a1 * 28) (h4 : b1 * 28 ≤ b2) :
    a2 ≤ roundF32 (roundF32 (roundF32 (t - c) / 100) * 28) ∧
      roundF32 (roundF32 (roundF32 (t - c) / 100) * 28) ≤ b2 := by
  rw [hd]
  exact scale_between ha1 hb1 ha2 hb2 h1 h2 h3 h4

/-- Points with `x - 100` equal to `-1` or `-5/4`: the scaled value lies in
`[-7/16, -7/32]`. -/
theorem scaledX_left {t d : ℚ} (hd : roundF32 (t - 100) = d) (h1 : -25 / 16 ≤ d)
    (h2 : d ≤ -25 / 32) : -7 / 16 ≤ scaledX t ∧ scaledX t ≤ -7 / 32 := by
  rw [scaledX_eq]
  exact scaled_between hd
    (roundF32_dyadic (-1 / 64) (-1) 6 (by norm_num) (by norm_num) (by decide))
    (roundF32_dyadic (-1 / 128) (-1) 7 (by norm_num) (by norm_num) (by decide))
    (roundF32_dyadic (-7 / 16) (-7) 4 (by norm_num) (by norm_num) (by decide))
    (roundF32_dyadic (-7 / 32) (-7) 5 (by norm_num) (by norm_num) (by decide))
    (by linarith) (by linarith) (by norm_num) (by norm_num)

/-- The row of `y = 60`: the scaled value lies in `[21/8, 91/32]`. -/
theorem scaledY_60 : 21 / 8 ≤ scaledY 60 ∧ scaledY 60 ≤ 91 / 32 := by
  rw [scaledY_eq]
  exact scaled_between
    (roundF32_dyadic (60 - 50) 10 0 (by norm_num) (by norm_num) (by decide))
    (roundF32_dyadic (3 / 32) 3 5 (by norm_num) (by norm_num) (by decide))
    (roundF32_dyadic (13 / 128) 13 7 (by norm_num) (by norm_num) (by decide))
    (roundF32_dyadic (21 / 8) 21 3 (by norm_num) (by norm_num) (by decide))
    (roundF32_dyadic (91 / 32) 91 5 (by norm_num) (by norm_num) (by decide))
    (by norm_num) (by norm_num) (by norm_num) (by norm_num)

/-- The row of `y = 120`: the scaled value lies in `[77/4, 315/16]`. -/
theorem scaledY_120 : 77 / 4 ≤ scaledY 120 ∧ scaledY 120 ≤ 315 / 16 := by
  rw [scaledY_eq]
  exact scaled_between
    (roundF32_dyadic (120 - 50) 70 0 (by norm_num) (by norm_num) (by decide))
    (roundF32_dyadic (11 / 16) 11 4 (by norm_num) (by norm_num) (by decide))
    (roundF32_dyadic (45 / 64) 45 6 (by norm_num) (by norm_num) (by decide))
    (roundF32_dyadic (77 / 4) 77 2 (by norm_num) (by norm_num) (by decide))
    (roundF32_dyadic (315 / 16) 315 4 (by norm_num) (by norm_num) (by decide))
    (by norm_num) (by norm_num) (by norm_num) (by norm_num)

/-- The column of `x = 150.3125`: the scaled value lies in `[14, 119/8]`. -/
theorem scaledX_sampleB : 14 ≤ scaledX (2405 / 16) ∧ scaledX (2405 / 16) ≤ 119 / 8 := by
  rw [scaledX_eq]
  exact scaled_between
    (roundF32_dyadic (2405 / 16 - 100) 805 4 (by norm_num) (by norm_num) (by decide))
    (roundF32_dyadic (1 / 2) 1 1 (by norm_num) (by norm_num) (by decide))
    (roundF32_dyadic (17 / 32) 17 5 (by norm_num) (by norm_num) (by decide))
    (roundF32_dyadic 14 14 0 (by norm_num) (by norm_num) (by decide))
    (roundF32_dyadic (119 / 8) 119 3 (by norm_num) (by norm_num) (by decide))
    (by norm_num) (by norm_num) (by norm_num) (by norm_num)

/-- The column of `x = 150`: the scaled value is 14. -/
theorem scaledX_150 : 14 ≤ scaledX 150 ∧ scaledX 150 ≤ 14 := by
  rw [scaledX_eq]
  exact scaled_between
    (roundF32_dyadic (150 - 100) 50 0 (by norm_num) (by norm_num) (by decide))
    (roundF32_dyadic (1 / 2) 1 1 (by norm_num) (by norm_num) (by decide))
    (roundF32_dyadic (1 / 2) 1 1 (by norm_num) (by norm_num) (by decide))
    (roundF32_dyadic 14 14 0 (by norm_num) (by norm_num) (by decide))
    (roundF32_dyadic 14 14 0 (by norm_num) (by norm_num) (by decide))
    (by norm_num) (by norm_num) (by norm_num) (by norm_num)

theorem toInt32_scaledX_99 : toInt32 (scaledX 99) = some 0 := by
  obtain ⟨h1, h2⟩ := @scaledX_left 99 (99 - 100)
    (roundF32_dyadic (99 - 100) (-1) 0 (by norm_num) (by norm_num) (by decide))
    (by norm_num) (by norm_num)
  exact toInt32_zero_of_between _ _ h1 h2 (by norm_num) (by norm_num)

theorem toInt32_scaledY_60 : toInt32 (scaledY 60) = some 2 :=
  toInt32_of_between 2 _ _ scaledY_60.1 scaledY_60.2 (by norm_num) (by decide)
    (by norm_num) (by decide)

theorem toInt32_scaledY_120 : toInt32 (scaledY 120) = some 19 :=
  toInt32_of_between 19 _ _ scaledY_120.1 scaledY_120.2 (by norm_num) (by decide)
    (by norm_num) (by decide)

theorem sampleA_screen :
    toInt32 (screenX lcd320x240 sampleA) = some 160 ∧
    toInt32 (screenY lcd320x240 sampleA) = some 120 := by
  rw [sampleA_point.1, sampleA_point.2]
  constructor <;> apply toInt32_eval <;> norm_num [INT32_MAX]

theorem truncQ_sampleA :
    truncQ (screenX lcd320x240 sampleA) = 160 ∧
    truncQ (screenY lcd320x240 sampleA) = 120 := by
  rw [sampleA_point.1, sampleA_point.2]
  constructor <;> apply truncQ_eq_of_nonneg <;> norm_num

theorem sampleB_screen :
    toInt32 (screenX lcd320x240 sampleB) = some 150 ∧
    toInt32 (screenY lcd320x240 sampleB) = some 120 := by
  rw [sampleB_point.1, sampleB_point.2]
  constructor <;> apply toInt32_eval <;> norm_num [INT32_MAX]

theorem sampleB_cell :
    toInt32 (scaledX (screenX lcd320x240 sampleB)) = some 14 ∧
    toInt32 (scaledY (screenY lcd320x240 sampleB)) = some 19 := by
  rw [sampleB_point.1, sampleB_point.2]
  exact ⟨toInt32_of_between 14 _ _ scaledX_sampleB.1 scaledX_sampleB.2 (by norm_num)
    (by decide) (by norm_num) (by decide), toInt32_scaledY_120⟩

theorem sampleLeft_screen :
    toInt32 (screenX lcd320x240 sampleLeft) = some 98 ∧
    toInt32 (screenY lcd320x240 sampleLeft) = some 60 := by
  rw [sampleLeft_point.1, sampleLeft_point.2]
  constructor <;> apply toInt32_eval <;> norm_num [INT32_MAX]

theorem sampleLeft_cell :
    toInt32 (scaledX (screenX lcd320x240 sampleLeft)) = some 0 ∧
    toInt32 (scaledY (screenY lcd320x240 sampleLeft)) = some 2 := by
  rw [sampleLeft_point.1, sampleLeft_point.2]
  obtain ⟨h1, h2⟩ := @scaledX_left (395 / 4) (395 / 4 - 100)
    (roundF32_dyadic (395 / 4 - 100) (-5) 2 (by norm_num) (by norm_num) (by decide))
    (by norm_num) (by norm_num)
  exact ⟨toInt32_zero_of_between _ _ h1 h2 (by norm_num) (by norm_num), toInt32_scaledY_60⟩

theorem sampleClear_screen :
    toInt32 (screenX lcd320x240 sampleClear) = some 288 ∧
    toInt32 (screenY lcd320x240 sampleClear) = some 24 := by
  rw [sampleClear_point.1, sampleClear_point.2]
  constructor <;> apply toInt32_eval <;> norm_num [INT32_MAX]

theorem sampleA_not_inClear : ¬ inClear lcd320x240 sampleA := by
  unfold inClear
  rw [sampleA_point.1, sampleA_point.2, i2f_eq _ (abs_lt_pow24 (by decide) (by decide))]
  norm_num [lcd320x240]

theorem sampleA_not_inRun : ¬ inRun lcd320x240 sampleA := by
  unfold inRun
  rw [sampleA_point.1, sampleA_point.2, i2f_eq _ (abs_lt_pow24 (by decide) (by decide))]
  norm_num [lcd320x240]

theorem sampleClear_inClear : inClear lcd320x240 sampleClear := by
  unfold inClear
  rw [sampleClear_point.1, sampleClear_point.2,
    i2f_eq _ (abs_lt_pow24 (by decide) (by decide))]
  norm_num [lcd320x240]

theorem sampleB_near (buf : List Int) : near lcd320x240 ⟨buf, 160, 120⟩ sampleB := by
  unfold near
  rw [sampleB_point.1, sampleB_point.2,
    fsub_i2f_eval (2405 / 16) 160 (-155) 4 (by decide) (by decide) (by norm_num)
      (by norm_num) (by decide),
    fsub_i2f_eval 120 120 0 0 (by decide) (by decide) (by norm_num) (by norm_num)
      (by decide)]
  norm_num [abs_lt]

theorem sampleLeft_near (buf : List Int) : near lcd320x240 ⟨buf, 100, 60⟩ sampleLeft := by
  unfold near
  rw [sampleLeft_point.1, sampleLeft_point.2,
    fsub_i2f_eval (395 / 4) 100 (-5) 2 (by decide) (by decide) (by norm_num)
      (by norm_num) (by decide),
    fsub_i2f_eval 60 60 0 0 (by decide) (by decide) (by norm_num) (by norm_num)
      (by decide)]
  norm_num [abs_lt]

theorem tick_near_inGrid (lcd : LcdIli9341SPI) (itp : MicroInterpreter) (st : State)
    (s : TouchSample) (ha : accepted s) (hp : st.tpXprevious ≠ -1) (hn : near lcd st s)
    {xi yi px py : Int}
    (hx : toInt32 (scaledX (screenX lcd s)) = some xi)
    (hy : toInt32 (scaledY (screenY lcd s)) = some yi) (hg : inGrid xi yi)
    (hpx : toInt32 (screenX lcd s) = some px)
    (hpy : toInt32 (screenY lcd s) = some py) :
    tick lcd itp st s =
      some { state := ⟨st.s_mnistBuffer.set (xi + yi * MNIST_W).toNat 1, px, py⟩,
             action := none, rasterized := true, halted := false } := by
  rw [tick_near lcd itp st s ha hp hn, writeMnistBuffer_of_casts _ _ _ hx hy, if_pos hg]
  simp only []
  rw [setPrevious_of_casts _ _ _ _ _ hpx hpy]

theorem tick_init_sampleA (itp : MicroInterpreter) :
    tick lcd320x240 itp State.init sampleA =
      some { state := ⟨reset [], 160, 120⟩, action := none, rasterized := false,
             halted := false } := by
  rw [tick_idle lcd320x240 itp State.init sampleA sampleA_accepted rfl
    sampleA_not_inClear sampleA_not_inRun,
    setPrevious_of_casts _ _ _ _ _ sampleA_screen.1 sampleA_screen.2]
  rfl

theorem tick_sampleB_near (itp : MicroInterpreter) (buf : List Int) :
    tick lcd320x240 itp ⟨buf, 160, 120⟩ sampleB =
      some { state := ⟨buf.set 546 1, 150, 120⟩, action := none, rasterized := true,
             halted := false } :=
  tick_near_inGrid lcd320x240 itp ⟨buf, 160, 120⟩ sampleB sampleB_accepted
    (show (160 : Int) ≠ -1 by decide) (sampleB_near buf)
    sampleB_cell.1 sampleB_cell.2 (by unfold inGrid MNIST_W MNIST_H; decide)
    sampleB_screen.1 sampleB_screen.2

theorem tick_sampleLeft_near (itp : MicroInterpreter) (buf : List Int) :
    tick lcd320x240 itp ⟨buf, 100, 60⟩ sampleLeft =
      some { state := ⟨buf.set 56 1, 98, 60⟩, action := none, rasterized := true,
             halted := false } :=
  tick_near_inGrid lcd320x240 itp ⟨buf, 100, 60⟩ sampleLeft sampleLeft_accepted
    (show (100 : Int) ≠ -1 by decide) (sampleLeft_near buf)
    sampleLeft_cell.1 sampleLeft_cell.2 (by unfold inGrid MNIST_W MNIST_H; decide)
    sampleLeft_screen.1 sampleLeft_screen.2

theorem tick_sampleClear (itp : MicroInterpreter) (buf : List Int) :
    tick lcd320x240 itp ⟨buf, -1, -1⟩ sampleClear =
      some { state := ⟨reset buf, 288, 24⟩, action := some Action.Reset,
             rasterized := false, halted := false } := by
  rw [tick_clear lcd320x240 itp ⟨buf, -1, -1⟩ sampleClear sampleClear_accepted rfl
    sampleClear_inClear,
    setPrevious_of_casts _ _ _ _ _ sampleClear_screen.1 sampleClear_screen.2]

/-! ## Rounding cases

Samples for which the products of lines 67-68 round: the iteration follows the rounded
value. -/

/-- Evaluation of the rounding on a positive normal value: `e` is its binary exponent
and `m` the rounded mantissa. -/
theorem roundF32_eval (v : ℚ) (e m : Int) (he : -126 ≤ e) (h1 : (2 : ℚ) ^ e ≤ v)
    (h2 : v < (2 : ℚ) ^ (e + 1)) (hm : roundHalfEven (v / (2 : ℚ) ^ (e - 23)) = m) :
    roundF32 v = m * (2 : ℚ) ^ (e - 23) := by
  have hv : 0 < v := lt_of_lt_of_le (zpow_pos (by norm_num) e) h1
  have hlog : Int.log 2 v = e := by
    apply le_antisymm
    · have : Int.log 2 v < e + 1 := by
        rw [← Int.lt_zpow_iff_log_lt (by norm_num) hv, Nat.cast_ofNat]
        exact h2
      omega
    · rw [← Int.zpow_le_iff_le_log (by norm_num) hv, Nat.cast_ofNat]
      exact h1
  have hb : binade v = e := by
    unfold binade
    rw [hlog, max_eq_left he]
  unfold roundF32 ulp
  rw [if_pos hv.le, hb, hm]

theorem sampleRound288_point :
    sampleRound288.tpX * lcd320x240.WIDTH < 288 ∧
    screenX lcd320x240 sampleRound288 = 288 ∧
    toInt32 (screenX lcd320x240 sampleRound288) = some 288 := by
  have h : screenX lcd320x240 sampleRound288 = 288 := by
    unfold screenX fmul
    rw [i2f_eq _ (abs_lt_pow24 (by decide) (by decide)),
      roundF32_eval _ 8 9437184 (by decide) (by norm_num [sampleRound288, lcd320x240])
        (by norm_num [sampleRound288, lcd320x240])
        (by norm_num [roundHalfEven, sampleRound288, lcd320x240])]
    norm_num
  refine ⟨by norm_num [sampleRound288, lcd320x240], h, ?_⟩
  rw [h]
  apply toInt32_eval <;> norm_num [INT32_MAX]

theorem sampleRound151_point :
    sampleRound151.tpX * lcd320x240.WIDTH < 151 ∧
    screenX lcd320x240 sampleRound151 = 151 ∧ screenY lcd320x240 sampleRound151 = 120 := by
  refine ⟨by norm_num [sampleRound151, lcd320x240], ?_, ?_⟩
  · unfold screenX fmul
    rw [i2f_eq _ (abs_lt_pow24 (by decide) (by decide)),
      roundF32_eval _ 7 9895936 (by decide) (by norm_num [sampleRound151, lcd320x240])
        (by norm_num [sampleRound151, lcd320x240])
        (by norm_num [roundHalfEven, sampleRound151, lcd320x240])]
    norm_num
  · have := fmul_i2f_eval sampleRound151.tpY lcd320x240.HEIGHT 120 0 (by decide) (by decide)
      (by norm_num [sampleRound151, lcd320x240]) (by norm_num) (by decide)
    unfold screenY
    rw [this]; norm_num

theorem sampleRound50_point :
    sampleRound50.tpY * lcd320x240.HEIGHT < 50 ∧
    screenX lcd320x240 sampleRound50 = 260 ∧ screenY lcd320x240 sampleRound50 = 50 := by
  refine ⟨by norm_num [sampleRound50, lcd320x240], ?_, ?_⟩
  · have := fmul_i2f_eval sampleRound50.tpX lcd320x240.WIDTH 260 0 (by decide) (by decide)
      (by norm_num [sampleRound50, lcd320x240]) (by norm_num) (by decide)
    unfold screenX
    rw [this]; norm_num
  · unfold screenY fmul
    rw [i2f_eq _ (abs_lt_pow24 (by decide) (by decide)),
      roundF32_eval _ 5 13107200 (by decide) (by norm_num [sampleRound50, lcd320x240])
        (by norm_num [sampleRound50, lcd320x240])
        (by norm_num [roundHalfEven, sampleRound50, lcd320x240])]
    norm_num

theorem sampleRound190_point :
    190 < sampleRound190.tpY * lcd320x240.HEIGHT ∧
    screenX lcd320x240 sampleRound190 = 260 ∧ screenY lcd320x240 sampleRound190 = 190 := by
  refine ⟨by norm_num [sampleRound190, lcd320x240], ?_, ?_⟩
  · have := fmul_i2f_eval sampleRound190.tpX lcd320x240.WIDTH 260 0 (by decide) (by decide)
      (by norm_num [sampleRound190, lcd320x240]) (by norm_num) (by decide)
    unfold screenX
    rw [this]; norm_num
  · unfold screenY fmul
    rw [i2f_eq _ (abs_lt_pow24 (by decide) (by decide)),
      roundF32_eval _ 7 12451840 (by decide) (by norm_num [sampleRound190, lcd320x240])
        (by norm_num [sampleRound190, lcd320x240])
        (by norm_num [roundHalfEven, sampleRound190, lcd320x240])]
    norm_num

/-- A new contact whose exact `y * 240` is below 50 and whose `float` product is 50:
`tpY < 50` fails and `reset` is not called. -/
theorem tick_sampleRound50 (itp : MicroInterpreter) (buf : List Int) :
    tick lcd320x240 itp ⟨buf, -1, -1⟩ sampleRound50 =
      some { state := ⟨buf, 260, 50⟩, action := none, rasterized := false,
             halted := false } := by
  have hc : ¬ inClear lcd320x240 sampleRound50 := by
    unfold inClear
    rw [sampleRound50_point.2.1, sampleRound50_point.2.2]
    norm_num
  have hr : ¬ inRun lcd320x240 sampleRound50 := by
    unfold inRun
    rw [sampleRound50_point.2.1, sampleRound50_point.2.2,
      i2f_eq _ (abs_lt_pow24 (by decide) (by decide)),
      i2f_eq _ (abs_lt_pow24 (by decide) (by decide))]
    norm_num [lcd320x240]
  rw [tick_idle lcd320x240 itp ⟨buf, -1, -1⟩ sampleRound50
    (by unfold accepted sampleRound50; norm_num) rfl hc hr,
    sampleRound50_point.2.1, sampleRound50_point.2.2,
    setPrevious_of_casts _ _ _ _ _
      (toInt32_eval 260 (by norm_num) (by norm_num) (by norm_num) (by decide))
      (toInt32_eval 50 (by norm_num) (by norm_num) (by norm_num) (by decide))]

/-- A new contact whose exact `y * 240` is above 190 and whose `float` product is 190:
`HEIGHT - 50 < tpY` fails and `run` is not called. -/
theorem tick_sampleRound190 (itp : MicroInterpreter) (buf : List Int) :
    tick lcd320x240 itp ⟨buf, -1, -1⟩ sampleRound190 =
      some { state := ⟨buf, 260, 190⟩, action := none, rasterized := false,
             halted := false } := by
  have hc : ¬ inClear lcd320x240 sampleRound190 := by
    unfold inClear
    rw [sampleRound190_point.2.1, sampleRound190_point.2.2]
    norm_num
  have hr : ¬ inRun lcd320x240 sampleRound190 := by
    unfold inRun
    rw [sampleRound190_point.2.1, sampleRound190_point.2.2,
      i2f_eq _ (abs_lt_pow24 (by decide) (by decide)),
      i2f_eq _ (abs_lt_pow24 (by decide) (by decide))]
    norm_num [lcd320x240]
  rw [tick_idle lcd320x240 itp ⟨buf, -1, -1⟩ sampleRound190
    (by unfold accepted sampleRound190; norm_num) rfl hc hr,
    sampleRound190_point.2.1, sampleRound190_point.2.2,
    setPrevious_of_casts _ _ _ _ _
      (toInt32_eval 260 (by norm_num) (by norm_num) (by norm_num) (by decide))
      (toInt32_eval 190 (by norm_num) (by norm_num) (by norm_num) (by decide))]

/-- A new contact whose exact `x * 320` is below 151 and whose `float` product is 151:
the previous point becomes (151, 120). -/
theorem tick_sampleRound151 (itp : MicroInterpreter) (buf : List Int) :
    tick lcd320x240 itp ⟨buf, -1, -1⟩ sampleRound151 =
      some { state := ⟨buf, 151, 120⟩, action := none, rasterized := false,
             halted := false } := by
  have hc : ¬ inClear lcd320x240 sampleRound151 := by
    unfold inClear
    rw [sampleRound151_point.2.1, sampleRound151_point.2.2,
      i2f_eq _ (abs_lt_pow24 (by decide) (by decide))]
    norm_num [lcd320x240]
  have hr : ¬ inRun lcd320x240 sampleRound151 := by
    unfold inRun
    rw [sampleRound151_point.2.1, sampleRound151_point.2.2,
      i2f_eq _ (abs_lt_pow24 (by decide) (by decide)),
      i2f_eq _ (abs_lt_pow24 (by decide) (by decide))]
    norm_num [lcd320x240]
  rw [tick_idle lcd320x240 itp ⟨buf, -1, -1⟩ sampleRound151
    (by unfold accepted sampleRound151; norm_num) rfl hc hr,
    sampleRound151_point.2.1, sampleRound151_point.2.2,
    setPrevious_of_casts _ _ _ _ _
      (toInt32_eval 151 (by norm_num) (by norm_num) (by norm_num) (by decide))
      (toInt32_eval 120 (by norm_num) (by norm_num) (by norm_num) (by decide))]

theorem sampleCentre_point :
    screenX lcd320x240 sampleCentre = 160 ∧ screenY lcd320x240 sampleCentre = 120 := by
  constructor
  · have := fmul_i2f_eval sampleCentre.tpX lcd320x240.WIDTH 160 0 (by decide) (by decide)
      (by norm_num [sampleCentre, lcd320x240]) (by norm_num) (by decide)
    unfold screenX
    rw [this]; norm_num
  · have := fmul_i2f_eval sampleCentre.tpY lcd320x240.HEIGHT 120 0 (by decide) (by decide)
      (by norm_num [sampleCentre, lcd320x240]) (by norm_num) (by decide)
    unfold screenY
    rw [this]; norm_num

/-- The column of `x = 160`: the scaled value lies in `[133/8, 539/32]`. -/
theorem scaledX_160 : 133 / 8 ≤ scaledX 160 ∧ scaledX 160 ≤ 539 / 32 := by
  rw [scaledX_eq]
  exact scaled_between
    (roundF32_dyadic (160 - 100) 60 0 (by norm_num) (by norm_num) (by decide))
    (roundF32_dyadic (19 / 32) 19 5 (by norm_num) (by norm_num) (by decide))
    (roundF32_dyadic (77 / 128) 77 7 (by norm_num) (by norm_num) (by decide))
    (roundF32_dyadic (133 / 8) 133 3 (by norm_num) (by norm_num) (by decide))
    (roundF32_dyadic (539 / 32) 539 5 (by norm_num) (by norm_num) (by decide))
    (by norm_num) (by norm_num) (by norm_num) (by norm_num)

/-- After `sampleRound151` the stored previous point is (151, 120), so the contact at
(160, 120), 9 pixels away, is rasterized: cell 548, that is cell (16, 19), is set. -/
theorem tick_after_sampleRound151 (itp : MicroInterpreter) (buf : List Int) :
    tick lcd320x240 itp ⟨buf, 151, 120⟩ sampleCentre =
      some { state := ⟨buf.set 548 1, 160, 120⟩, action := none, rasterized := true,
             halted := false } := by
  have hn : near lcd320x240 ⟨buf, 151, 120⟩ sampleCentre := by
    unfold near
    rw [sampleCentre_point.1, sampleCentre_point.2,
      fsub_i2f_eval 160 151 9 0 (by decide) (by decide) (by norm_num) (by norm_num)
        (by decide),
      fsub_i2f_eval 120 120 0 0 (by decide) (by decide) (by norm_num) (by norm_num)
        (by decide)]
    norm_num [abs_lt]
  have hx : toInt32 (scaledX (screenX lcd320x240 sampleCentre)) = some 16 := by
    rw [sampleCentre_point.1]
    exact toInt32_of_between 16 _ _ scaledX_160.1 scaledX_160.2 (by norm_num) (by decide)
      (by norm_num) (by decide)
  have hy : toInt32 (scaledY (screenY lcd320x240 sampleCentre)) = some 19 := by
    rw [sampleCentre_point.2]
    exact toInt32_scaledY_120
  have hpx : toInt32 (screenX lcd320x240 sampleCentre) = some 160 := by
    rw [sampleCentre_point.1]
    exact toInt32_eval 160 (by norm_num) (by norm_num) (by norm_num) (by decide)
  have hpy : toInt32 (screenY lcd320x240 sampleCentre) = some 120 := by
    rw [sampleCentre_point.2]
    exact toInt32_eval 120 (by norm_num) (by norm_num) (by norm_num) (by decide)
  exact tick_near_inGrid lcd320x240 itp ⟨buf, 151, 120⟩ sampleCentre
    (by unfold accepted sampleCentre; norm_num) (show (151 : Int) ≠ -1 by decide) hn
    hx hy (by unfold inGrid MNIST_W MNIST_H; decide) hpx hpy

/-- A point whose scaled `x` rounds up to 15 through a tie: the exact value of
`(tpX - 100) / 100 * 28` is below 15, the value of lines 154-156 is 15. -/
theorem scaledX_rounds_to_15 :
    (10064457 / 65536 - 100 : ℚ) / 100 * 28 < 15 ∧ scaledX (10064457 / 65536) = 15 := by
  refine ⟨by norm_num, ?_⟩
  rw [scaledX_eq,
    roundF32_dyadic (10064457 / 65536 - 100) 3510857 16 (by norm_num) (by norm_num)
      (by decide),
    roundF32_eval ((10064457 / 65536 - 100) / 100) (-1) 8987794 (by decide) (by norm_num)
      (by norm_num) (by norm_num [roundHalfEven])]
  rw [roundF32_eval _ 3 15728640 (by decide) (by norm_num) (by norm_num)
    (by norm_num [roundHalfEven])]
  norm_num

/-- The store for that point goes to cell 71, that is cell (15, 2). -/
theorem writeMnistBuffer_rounds_to_15 (buf : List Int) :
    writeMnistBuffer buf (10064457 / 65536) 60 = some (buf.set 71 1) := by
  have hx : toInt32 (scaledX (10064457 / 65536)) = some 15 := by
    rw [scaledX_rounds_to_15.2]
    exact toInt32_eval 15 (by norm_num) (by norm_num) (by norm_num) (by decide)
  rw [writeMnistBuffer_of_casts buf _ 60 hx toInt32_scaledY_60,
    if_pos (by unfold inGrid MNIST_W MNIST_H; decide)]
  rfl

/-! # The claims -/

/-! ## `run`: the reported class -/

/-- Exactly when `run` reports the lowest index of the maximal score: some score is
strictly positive, or class 0 already has the maximal score. In every case the
reported index is below 10, and it is 0 when no score is positive. -/
theorem run_maxIndex_lowest_argmax_iff (output : TfLiteTensor) :
    run_maxIndex output < 10 ∧
    (((∀ c, c < 10 → score output c ≤ score output (run_maxIndex output)) ∧
      (∀ c, c < run_maxIndex output → score output c < score output (run_maxIndex output))) ↔
     ((∃ c, c < 10 ∧ 0 < score output c) ∨ ∀ c, c < 10 → score output c ≤ score output 0)) ∧
    ((∀ c, c < 10 → score output c ≤ 0) → run_maxIndex output = 0) := by
  have hnp : (¬ ∃ c, c < 10 ∧ 0 < score output c) → run_maxIndex output = 0 := by
    intro hne
    apply run_maxIndex_of_nonpos
    intro c hc
    by_contra hcon
    exact hne ⟨c, hc, not_le.mp hcon⟩
  refine ⟨?_, ⟨?_, ?_⟩, run_maxIndex_of_nonpos output⟩
  · by_cases hpos : ∃ c, c < 10 ∧ 0 < score output c
    · exact (run_maxIndex_of_pos output hpos).1
    · rw [hnp hpos]; decide
  · rintro ⟨hmax, _⟩
    by_cases hpos : ∃ c, c < 10 ∧ 0 < score output c
    · exact Or.inl hpos
    · rw [hnp hpos] at hmax
      exact Or.inr hmax
  · intro h
    by_cases hpos : ∃ c, c < 10 ∧ 0 < score output c
    · exact (run_maxIndex_of_pos output hpos).2
    · rcases h with h | h
      · exact absurd h hpos
      · rw [hnp hpos]
        exact ⟨h, fun c hc => absurd hc (Nat.not_lt_zero c)⟩

/-- C1, at the failing input. For the output tensor with entries -3, -1, -2, -4, -5, ...,
zero point 0 and scale 0.5 (scores -1.5, -0.5, -1, ...), `run` reports class 0, whose
score -1.5 is below the score -0.5 of class 1: class 0 is not the argmax. -/
theorem run_maxIndex_negative_scores :
    run_maxIndex logitsTensor = 0 ∧
    score logitsTensor 0 = -3 / 2 ∧ score logitsTensor 1 = -1 / 2 ∧
    score logitsTensor (run_maxIndex logitsTensor) < score logitsTensor 1 := by
  have h : run_maxIndex logitsTensor = 0 :=
    run_maxIndex_of_nonpos logitsTensor
      (by intro c hc; interval_cases c <;> norm_num [score, logitsTensor])
  rw [h]
  refine ⟨rfl, ?_, ?_, ?_⟩ <;> norm_num [logitsTensor, score]

/-- C7. For every output tensor with a strictly positive decoded score, `run` reports
an index below 10 whose score is maximal and strictly above the score of every lower
index. Scores beginning 0.3, 0.3, 0.9, 0.1 with the remaining ones below 0.9 give
class 2; scores beginning 0.9, 0.9, 0.1 with the remaining ones at most 0.9 give
class 0. -/
theorem run_maxIndex_first_max (output : TfLiteTensor) :
    ((∃ c, c < 10 ∧ 0 < score output c) →
      run_maxIndex output < 10 ∧
      (∀ c, c < 10 → score output c ≤ score output (run_maxIndex output)) ∧
      (∀ c, c < run_maxIndex output →
        score output c < score output (run_maxIndex output))) ∧
    (score output 0 = 3 / 10 → score output 1 = 3 / 10 → score output 2 = 9 / 10 →
      score output 3 = 1 / 10 → (∀ c, 4 ≤ c → c < 10 → score output c < 9 / 10) →
      run_maxIndex output = 2) ∧
    (score output 0 = 9 / 10 → score output 1 = 9 / 10 → score output 2 = 1 / 10 →
      (∀ c, 3 ≤ c → c < 10 → score output c ≤ 9 / 10) →
      run_maxIndex output = 0) := by
  refine ⟨run_maxIndex_of_pos output, ?_, ?_⟩
  · intro h0 h1 h2 h3 hrest
    obtain ⟨hlt, hmax, hfirst⟩ :=
      run_maxIndex_of_pos output ⟨2, by decide, by rw [h2]; norm_num⟩
    have hm2 := hmax 2 (by decide)
    rw [h2] at hm2
    generalize run_maxIndex output = m at hlt hmax hfirst hm2
    interval_cases m
    · rw [h0] at hm2; norm_num at hm2
    · rw [h1] at hm2; norm_num at hm2
    · rfl
    · rw [h3] at hm2; norm_num at hm2
    all_goals
      exact absurd (hrest _ (by decide) (by decide)) (not_lt.mpr hm2)
  · intro h0 h1 h2 hrest
    obtain ⟨hlt, hmax, hfirst⟩ :=
      run_maxIndex_of_pos output ⟨0, by decide, by rw [h0]; norm_num⟩
    by_contra hne
    have hpos : 0 < run_maxIndex output := Nat.pos_of_ne_zero hne
    have hlow := hfirst 0 hpos
    rw [h0] at hlow
    generalize run_maxIndex output = m at hlt hmax hfirst hpos hlow
    interval_cases m
    · rw [h1] at hlow; exact lt_irrefl _ hlow
    · rw [h2] at hlow; norm_num at hlow
    all_goals
      exact absurd (hrest _ (by decide) (by decide)) (not_le.mpr hlow)

/-- C7, on two tensors: scores 0.3, 0.3, 0.9, 0.1, 0, ... give class 2, and scores
0.9, 0.9, 0.1, 0, ... give class 0. -/
theorem run_maxIndex_first_max_witness :
    run_maxIndex strictMaxTensor = 2 ∧ run_maxIndex tiedMaxTensor = 0 ∧
    score strictMaxTensor 0 ≤ score strictMaxTensor (run_maxIndex strictMaxTensor) :=
  ⟨(run_maxIndex_first_max strictMaxTensor).2.1 (by norm_num [score, strictMaxTensor])
      (by norm_num [score, strictMaxTensor]) (by norm_num [score, strictMaxTensor])
      (by norm_num [score, strictMaxTensor])
      (by intro c h4 h10; interval_cases c <;> norm_num [score, strictMaxTensor]),
   (run_maxIndex_first_max tiedMaxTensor).2.2 (by norm_num [score, tiedMaxTensor])
      (by norm_num [score, tiedMaxTensor]) (by norm_num [score, tiedMaxTensor])
      (by intro c h3 h10; interval_cases c <;> norm_num [score, tiedMaxTensor]),
   ((run_maxIndex_first_max strictMaxTensor).1
      ⟨2, by decide, by norm_num [score, strictMaxTensor]⟩).2.1 0 (by decide)⟩

/-! ## `run`: the input tensor -/

theorem setInput_loop (buf : List Int) (n : Nat) (input : List Int) :
    ((List.range n).foldl
        (fun inp i => inp.set i (if buf.getD i 0 = 1 then 127 else -128)) input).length =
      input.length ∧
    ∀ k, k < input.length →
      ((List.range n).foldl
          (fun inp i => inp.set i (if buf.getD i 0 = 1 then 127 else -128)) input).getD k 0 =
        if k < n then (if buf.getD k 0 = 1 then 127 else -128) else input.getD k 0 := by
  induction n with
  | zero => simp
  | succ n ih =>
    obtain ⟨hlen, hget⟩ := ih
    rw [List.range_succ, List.foldl_append]
    simp only [List.foldl_cons, List.foldl_nil]
    refine ⟨by rw [List.length_set, hlen], ?_⟩
    intro k hk
    have hk' := hget k hk
    by_cases hkn : k = n
    · subst hkn
      rw [if_pos (Nat.lt_succ_self k)]
      rw [List.getD_eq_getElem _ _ (by rw [List.length_set, hlen]; exact hk)]
      rw [List.getElem_set_self]
    · rw [List.getD_eq_getElem _ _ (by rw [List.length_set, hlen]; exact hk)]
      rw [List.getElem_set_ne (Ne.symm hkn)]
      rw [← List.getD_eq_getElem _ 0, hk']
      by_cases hlt : k < n
      · rw [if_pos hlt, if_pos (Nat.lt_succ_of_lt hlt)]
      · rw [if_neg hlt, if_neg (by omega)]

theorem run_setInput_spec (buf input : List Int) :
    (run_setInput buf input).length = input.length ∧
    ∀ k, k < input.length → k < 784 →
      (run_setInput buf input).getD k 0 = if buf.getD k 0 = 1 then 127 else -128 := by
  have hn : (MNIST_W * MNIST_H).toNat = 784 := by decide
  unfold run_setInput
  rw [hn]
  obtain ⟨hl, hg⟩ := setInput_loop buf 784 input
  refine ⟨hl, ?_⟩
  intro k hk hk'
  rw [hg k hk, if_pos hk']

theorem run_input (itp : MicroInterpreter) (buf : List Int) :
    (run itp buf).input = run_setInput buf itp.input := by
  unfold run
  dsimp only
  generalize run_setInput buf itp.input = inp
  cases itp.Invoke inp <;> rfl

/-- C8. For every grid and every index `k` below 784, the input tensor that `run`
builds (on an interpreter whose input tensor has 784 entries) has entry `k` equal to
127 when cell `k` is 1 and to -128 when cell `k` is 0; every entry is 127 or -128; the
tensor keeps its 784 entries and `s_mnistBuffer` is unchanged by the call. -/
theorem run_input_tensor (itp : MicroInterpreter) (buf : List Int)
    (hlen : itp.input.length = 784) (k : Nat) (hk : k < 784) :
    ((buf.getD k 0 = 1 → (run itp buf).input.getD k 0 = 127) ∧
     (buf.getD k 0 = 0 → (run itp buf).input.getD k 0 = -128) ∧
     ((run itp buf).input.getD k 0 = 127 ∨ (run itp buf).input.getD k 0 = -128)) ∧
    (run itp buf).input.length = 784 ∧
    (run itp buf).s_mnistBuffer = buf := by
  obtain ⟨hl, hg⟩ := run_setInput_spec buf itp.input
  have hk' := hg k (by rw [hlen]; exact hk) hk
  rw [run_input]
  refine ⟨⟨?_, ?_, ?_⟩, by rw [hl, hlen], run_s_mnistBuffer itp buf⟩
  · intro h1
    rw [hk', if_pos h1]
  · intro h0
    rw [hk', h0]; rfl
  · rw [hk']
    by_cases h : buf.getD k 0 = 1
    · exact Or.inl (if_pos h)
    · exact Or.inr (if_neg h)

/-- C8, on the grid whose only mark is cell 56: entry 56 of the input tensor is 127
and entry 57 is -128. -/
theorem run_input_tensor_witness :
    (run failingInterpreter ((reset []).set 56 1)).input.getD 56 0 = 127 ∧
    (run failingInterpreter ((reset []).set 56 1)).input.getD 57 0 = -128 :=
  ⟨(run_input_tensor failingInterpreter ((reset []).set 56 1) (List.length_replicate _ _) 56
      (by decide)).1.1 (getD_set_self _ _ _ (by rw [reset_length]; decide)),
   (run_input_tensor failingInterpreter ((reset []).set 56 1) (List.length_replicate _ _) 57
      (by decide)).1.2.1 (by rw [getD_set_ne _ _ (by decide), reset_getD])⟩

/-! ## `writeMnistBuffer` -/

/-- C10. Whenever both conversions of `writeMnistBuffer` are defined (the scaled
values fit in 32 bits), the call is defined: either a guard returns and the buffer is
unchanged, or the store happens at `xInBuff + yInBuff * 28`, which lies in 0..783.
Distinct pairs that pass the guards give distinct indices. -/
theorem writeMnistBuffer_index_in_bounds :
    (∀ (buf : List Int) (tpX tpY : ℚ) (xInBuff yInBuff : Int),
      toInt32 (scaledX tpX) = some xInBuff → toInt32 (scaledY tpY) = some yInBuff →
      (¬ inGrid xInBuff yInBuff ∧ writeMnistBuffer buf tpX tpY = some buf) ∨
      (inGrid xInBuff yInBuff ∧
        (0 ≤ xInBuff + yInBuff * MNIST_W ∧ xInBuff + yInBuff * MNIST_W ≤ 783) ∧
        writeMnistBuffer buf tpX tpY =
          some (buf.set (xInBuff + yInBuff * MNIST_W).toNat 1))) ∧
    (∀ x y x' y' : Int, inGrid x y → inGrid x' y' →
      x + y * MNIST_W = x' + y' * MNIST_W → x = x' ∧ y = y') := by
  constructor
  · intro buf tpX tpY xi yi hx hy
    rw [writeMnistBuffer_of_casts buf tpX tpY hx hy]
    by_cases hg : inGrid xi yi
    · rw [if_pos hg]
      have hb := index_in_bounds hg
      unfold MNIST_W MNIST_H at hb
      unfold MNIST_W
      exact Or.inr ⟨hg, ⟨hb.1, by omega⟩, rfl⟩
    · rw [if_neg hg]
      exact Or.inl ⟨hg, rfl⟩
  · intro x y x' y' h h' he
    unfold inGrid MNIST_W MNIST_H at h h'
    unfold MNIST_W at he
    omega

/-- C10, at the centre of the drawing area: the point (150, 120) has
`xInBuff = 14`, `yInBuff = 19` and is stored at index `14 + 19 * 28`. -/
theorem writeMnistBuffer_index_in_bounds_witness :
    (¬ inGrid 14 19 ∧ writeMnistBuffer (reset []) 150 120 = some (reset [])) ∨
    (inGrid 14 19 ∧ (0 ≤ 14 + 19 * MNIST_W ∧ 14 + 19 * MNIST_W ≤ 783) ∧
      writeMnistBuffer (reset []) 150 120 =
        some ((reset []).set (14 + 19 * MNIST_W).toNat 1)) :=
  writeMnistBuffer_index_in_bounds.1 (reset []) 150 120 14 19
    (toInt32_of_between 14 _ _ scaledX_150.1 scaledX_150.2 (by norm_num) (by decide)
      (by norm_num) (by decide))
    toInt32_scaledY_120

/-- C2, at the failing input. For the point (99, 60), one pixel left of the drawing
area, `floor(nx * 28)` is -1, yet `writeMnistBuffer` sets cell 56, that is cell (0, 2):
the conversion truncates the scaled value, about -0.28, to 0, which passes the guard
of line 158. The main loop
reaches the same store from the previous point (100, 60) with the sample whose screen
point is (98.75, 60). -/
theorem writeMnistBuffer_marks_left_of_area :
    ⌊scaledX 99⌋ = -1 ∧
    (∀ buf : List Int, writeMnistBuffer buf 99 60 = some (buf.set 56 1)) ∧
    (reset []).getD 56 0 = 0 ∧ ((reset []).set 56 1).getD 56 0 = 1 ∧
    tick lcd320x240 failingInterpreter ⟨reset [], 100, 60⟩ sampleLeft =
      some { state := ⟨(reset []).set 56 1, 98, 60⟩, action := none, rasterized := true,
             halted := false } := by
  have hfloor : ⌊scaledX 99⌋ = -1 := by
    obtain ⟨h1, h2⟩ := @scaledX_left 99 (99 - 100)
      (roundF32_dyadic (99 - 100) (-1) 0 (by norm_num) (by norm_num) (by decide))
      (by norm_num) (by norm_num)
    rw [Int.floor_eq_iff]
    constructor
    · push_cast; linarith
    · push_cast; linarith
  refine ⟨hfloor, ?_, reset_getD _ _,
    getD_set_self _ _ _ (by rw [reset_length]; decide), tick_sampleLeft_near _ _⟩
  intro buf
  rw [writeMnistBuffer_of_casts buf 99 60 toInt32_scaledX_99 toInt32_scaledY_60,
    if_pos (by unfold inGrid MNIST_W MNIST_H; decide)]
  rfl
/-! ## The main loop -/

/-- C6. For every grid, every previous point and every sample with pressure at most 50
or `x` at least 0.95, the iteration is defined, leaves `s_mnistBuffer` unchanged,
triggers no mode action, does not call `writeMnistBuffer`, and sets the previous point
to the sentinel (-1, -1). -/
theorem tick_no_contact (lcd : LcdIli9341SPI) (itp : MicroInterpreter) (st : State)
    (s : TouchSample) (h : s.tpPressure ≤ 50 ∨ 95 / 100 ≤ s.tpX) :
    tick lcd itp st s =
      some { state := ⟨st.s_mnistBuffer, -1, -1⟩, action := none, rasterized := false,
             halted := false } := by
  apply tick_rejected
  unfold accepted
  rintro ⟨hp, hx⟩
  rcases h with h | h
  · exact absurd hp (not_lt.mpr h)
  · exact absurd hx (not_lt.mpr h)

/-- C6, on a sample of pressure exactly 50 inside the "run" region, with a marked grid
and an active previous point. -/
theorem tick_no_contact_witness :
    tick lcd320x240 failingInterpreter ⟨(reset []).set 56 1, 160, 120⟩ ⟨9 / 10, 9 / 10, 50⟩ =
      some { state := ⟨(reset []).set 56 1, -1, -1⟩, action := none, rasterized := false,
             halted := false } :=
  tick_no_contact lcd320x240 failingInterpreter ⟨(reset []).set 56 1, 160, 120⟩
    ⟨9 / 10, 9 / 10, 50⟩ (Or.inl (le_refl _))

/-- C4. In every iteration: `reset` is called exactly when the sample is accepted, the
previous point is the sentinel and the screen point has `x > WIDTH - 80` and `y < 50`;
`run` is called exactly when the sample is accepted, the previous point is the sentinel,
the point is not in the clear region and has `x > WIDTH - 80` and `y > HEIGHT - 50`;
an iteration that starts from the sentinel never calls `writeMnistBuffer`; an iteration
whose previous point is not the sentinel calls neither `reset` nor `run`. The screen
point is the pair of `float` values that `tpX` and `tpY` hold after lines 67-68
(`screenX`, `screenY`), and `WIDTH - 80`, `HEIGHT - 50` are converted to `float` as in
lines 74 and 76. The iteration is defined for every sample of the unit square when the
panel constants lie from 0 to below `2 ^ 24`. -/
theorem tick_mode_dispatch (lcd : LcdIli9341SPI) (itp : MicroInterpreter) (st : State)
    (s : TouchSample) :
    (∀ r, tick lcd itp st s = some r →
      (r.action = some Action.Reset ↔
        accepted s ∧ st.tpXprevious = -1 ∧ inClear lcd s) ∧
      (r.action = some Action.Infer ↔
        accepted s ∧ st.tpXprevious = -1 ∧ ¬ inClear lcd s ∧ inRun lcd s) ∧
      (st.tpXprevious = -1 → r.rasterized = false) ∧
      (st.tpXprevious ≠ -1 → r.action = none)) ∧
    (lcd.valid → inUnitSquare s → ∃ r, tick lcd itp st s = some r) := by
  refine ⟨?_, tick_defined lcd itp st s⟩
  intro r h
  rcases tick_cases h with ⟨ha, hr⟩ | ⟨ha, px, py, _, _, hb⟩ | ⟨ha, hp, hc, hrun, _, hr⟩
  · subst hr
    simp [ha]
  · rcases hb with ⟨hp, _, buf, _, hr⟩ | ⟨hp, _, hr⟩ | ⟨hp, hc, hr⟩ | ⟨hp, hc, hrun, hr⟩ |
      ⟨hp, hc, hrun, hr⟩
    · subst hr
      simp [hp]
    · subst hr
      simp [hp]
    · subst hr
      simp [hp, hc, ha]
    · subst hr
      simp [hp, hc, ha, hrun]
    · subst hr
      simp [hp, hc, hrun]
  · subst hr
    simp [hp, hc, ha, hrun]

/-- C4, on a new contact at screen point (288, 24): the iteration calls `reset`, and
the dispatch conditions hold for it. -/
theorem tick_mode_dispatch_witness :
    accepted sampleClear ∧ (-1 : Int) = -1 ∧ inClear lcd320x240 sampleClear :=
  ((tick_mode_dispatch lcd320x240 failingInterpreter ⟨(reset []).set 56 1, -1, -1⟩
      sampleClear).1
    (Tick.mk ⟨reset ((reset []).set 56 1), 288, 24⟩ (some Action.Reset) false false)
    (tick_sampleClear failingInterpreter ((reset []).set 56 1))).1.mp rfl

theorem writeMnistBuffer_marks {buf buf' : List Int} {tpX tpY : ℚ}
    (h : writeMnistBuffer buf tpX tpY = some buf') :
    (∀ k, buf.getD k 0 = 1 → buf'.getD k 0 = 1) ∧
    ((∀ c ∈ buf, c = 0 ∨ c = 1) → ∀ c ∈ buf', c = 0 ∨ c = 1) ∧
    buf'.length = buf.length := by
  obtain ⟨xi, yi, _, _, hb⟩ := writeMnistBuffer_eq_some h
  by_cases hg : inGrid xi yi
  · rw [if_pos hg] at hb
    subst hb
    refine ⟨fun k hk => getD_set_one_of_one buf _ k hk, ?_, List.length_set _ _ _⟩
    intro hbin c hc
    rcases List.mem_or_eq_of_mem_set hc with hm | he
    · exact hbin c hm
    · exact Or.inr he
  · rw [if_neg hg] at hb
    subst hb
    exact ⟨fun _ hk => hk, fun hbin => hbin, rfl⟩

/-- C9. For every iteration that does not call `reset` (iterations that rasterize and
iterations that call `run` included), every cell that is 1 before is 1 after, a grid
of cells in {0, 1} stays one, and the number of cells is unchanged. An iteration that
calls `reset` leaves the grid `reset` builds, and that grid has 784 cells, all 0,
whatever the prior content. -/
theorem tick_marks_monotonic (lcd : LcdIli9341SPI) (itp : MicroInterpreter) (st : State)
    (s : TouchSample) (r : Tick) (h : tick lcd itp st s = some r) :
    (r.action ≠ some Action.Reset →
      (∀ k, st.s_mnistBuffer.getD k 0 = 1 → r.state.s_mnistBuffer.getD k 0 = 1) ∧
      ((∀ c ∈ st.s_mnistBuffer, c = 0 ∨ c = 1) →
        ∀ c ∈ r.state.s_mnistBuffer, c = 0 ∨ c = 1) ∧
      r.state.s_mnistBuffer.length = st.s_mnistBuffer.length) ∧
    (r.action = some Action.Reset → r.state.s_mnistBuffer = reset st.s_mnistBuffer) ∧
    (∀ buf : List Int, (reset buf).length = 784 ∧ ∀ c ∈ reset buf, c = 0) := by
  have hreset : ∀ buf : List Int, (reset buf).length = 784 ∧ ∀ c ∈ reset buf, c = 0 := by
    intro buf
    refine ⟨reset_length buf, ?_⟩
    intro c hc
    unfold reset at hc
    exact (List.mem_replicate.mp hc).2
  refine ⟨?_, ?_, hreset⟩
  · intro hne
    rcases tick_cases h with ⟨_, hr⟩ | ⟨_, px, py, _, _, hb⟩ | ⟨_, _, _, _, _, hr⟩
    · subst hr
      exact ⟨fun _ hk => hk, fun hbin => hbin, rfl⟩
    · rcases hb with ⟨_, _, buf, hw, hr⟩ | ⟨_, _, hr⟩ | ⟨_, _, hr⟩ | ⟨_, _, _, hr⟩ |
        ⟨_, _, _, hr⟩
      · subst hr
        exact writeMnistBuffer_marks hw
      · subst hr
        exact ⟨fun _ hk => hk, fun hbin => hbin, rfl⟩
      · subst hr
        exact absurd rfl hne
      · subst hr
        exact ⟨fun _ hk => hk, fun hbin => hbin, rfl⟩
      · subst hr
        exact ⟨fun _ hk => hk, fun hbin => hbin, rfl⟩
    · subst hr
      exact ⟨fun _ hk => hk, fun hbin => hbin, rfl⟩
  · intro he
    rcases tick_cases h with ⟨_, hr⟩ | ⟨_, px, py, _, _, hb⟩ | ⟨_, _, _, _, _, hr⟩
    · subst hr
      simp at he
    · rcases hb with ⟨_, _, buf, hw, hr⟩ | ⟨_, _, hr⟩ | ⟨_, _, hr⟩ | ⟨_, _, _, hr⟩ |
        ⟨_, _, _, hr⟩
      · subst hr
        simp at he
      · subst hr
        simp at he
      · subst hr
        rfl
      · subst hr
        simp at he
      · subst hr
        simp at he
    · subst hr
      simp at he

/-- C9, on an iteration that rasterizes cell 546 into a grid whose only mark is cell
56: cell 56 is still 1 afterwards. -/
theorem tick_marks_monotonic_witness :
    ((reset []).set 56 1).getD 56 0 = 1 ∧
    (((reset []).set 56 1).set 546 1).getD 56 0 = 1 :=
  ⟨getD_set_self _ _ _ (by rw [reset_length]; decide),
   ((tick_marks_monotonic lcd320x240 failingInterpreter ⟨(reset []).set 56 1, 160, 120⟩
      sampleB (Tick.mk ⟨((reset []).set 56 1).set 546 1, 150, 120⟩ none true false)
      (tick_sampleB_near failingInterpreter ((reset []).set 56 1))).1
        (by intro h; exact Option.noConfusion h)).1 56
      (getD_set_self _ _ _ (by rw [reset_length]; decide))⟩

/-! ## The previous point -/

theorem tick_previous {lcd : LcdIli9341SPI} {itp : MicroInterpreter} {st : State}
    {s : TouchSample} {r : Tick} (hl : lcd.valid) (hs : inUnitSquare s)
    (h : tick lcd itp st s = some r) (hh : r.halted = false) :
    (r.state.tpXprevious = -1 ↔ ¬ accepted s) ∧
    (accepted s →
      r.state.tpXprevious = truncQ (screenX lcd s) ∧
      r.state.tpYprevious = truncQ (screenY lcd s) ∧
      (0 ≤ r.state.tpXprevious ∧ r.state.tpXprevious ≤ lcd.WIDTH) ∧
      (0 ≤ r.state.tpYprevious ∧ r.state.tpYprevious ≤ lcd.HEIGHT)) := by
  obtain ⟨⟨hW0, hW1⟩, hH0, hH1⟩ := hl
  obtain ⟨⟨hx0, hx1⟩, hy0, hy1⟩ := hs
  obtain ⟨hcx, hnx, hux⟩ := toInt32_screen hx0 hx1 hW0 hW1
  obtain ⟨hcy, hny, huy⟩ := toInt32_screen hy0 hy1 hH0 hH1
  have hcx' : toInt32 (screenX lcd s) = some (truncQ (screenX lcd s)) := hcx
  have hcy' : toInt32 (screenY lcd s) = some (truncQ (screenY lcd s)) := hcy
  have hnx' : 0 ≤ truncQ (screenX lcd s) := hnx
  have hny' : 0 ≤ truncQ (screenY lcd s) := hny
  have hux' : truncQ (screenX lcd s) ≤ lcd.WIDTH := hux
  have huy' : truncQ (screenY lcd s) ≤ lcd.HEIGHT := huy
  rcases tick_cases h with ⟨ha, hr⟩ | ⟨ha, px, py, hpx, hpy, hb⟩ | ⟨_, _, _, _, _, hr⟩
  · subst hr
    exact ⟨⟨fun _ => ha, fun _ => rfl⟩, fun ha' => absurd ha' ha⟩
  · rw [hcx'] at hpx
    rw [hcy'] at hpy
    have hpx' : truncQ (screenX lcd s) = px := Option.some.inj hpx
    have hpy' : truncQ (screenY lcd s) = py := Option.some.inj hpy
    have hst : r.state.tpXprevious = px ∧ r.state.tpYprevious = py := by
      rcases hb with ⟨_, _, buf, _, hr⟩ | ⟨_, _, hr⟩ | ⟨_, _, hr⟩ | ⟨_, _, _, hr⟩ |
        ⟨_, _, _, hr⟩ <;> subst hr <;> exact ⟨rfl, rfl⟩
    rw [hst.1, hst.2, ← hpx', ← hpy']
    refine ⟨⟨fun he => ?_, fun hna => absurd ha hna⟩,
      fun _ => ⟨rfl, rfl, ⟨hnx', hux'⟩, ⟨hny', huy'⟩⟩⟩
    rw [he] at hnx'
    exact absurd hnx' (by decide)
  · subst hr
    exact absurd hh (Bool.noConfusion)

theorem mainLoop_snoc (lcd : LcdIli9341SPI) (itp : MicroInterpreter) (s : TouchSample)
    (samples : List TouchSample) (st : State) :
    mainLoop lcd itp st (samples ++ [s]) =
      match mainLoop lcd itp st samples with
      | none => none
      | some (st1, true) => some (st1, true)
      | some (st1, false) =>
        match tick lcd itp st1 s with
        | none => none
        | some r => some (r.state, r.halted) := by
  induction samples generalizing st with
  | nil =>
    simp only [List.nil_append, mainLoop]
    cases tick lcd itp st s with
    | none => rfl
    | some r =>
      simp only []
      cases r.halted <;> rfl
  | cons t rest ih =>
    simp only [List.cons_append, mainLoop]
    cases tick lcd itp st t with
    | none => rfl
    | some r =>
      simp only []
      cases hr : r.halted
      · simp only [Bool.false_eq_true, if_false]
        exact ih r.state
      · simp only [if_true]

theorem mainLoop_defined (lcd : LcdIli9341SPI) (itp : MicroInterpreter) (hl : lcd.valid)
    (samples : List TouchSample) (hs : ∀ t ∈ samples, inUnitSquare t) (st : State) :
    ∃ res, mainLoop lcd itp st samples = some res := by
  induction samples generalizing st with
  | nil => exact ⟨_, rfl⟩
  | cons t rest ih =>
    obtain ⟨r, hr⟩ := tick_defined lcd itp st t hl (hs t (List.mem_cons_self _ _))
    simp only [mainLoop, hr]
    cases r.halted
    · simp only [Bool.false_eq_true, if_false]
      exact ih (fun u hu => hs u (List.mem_cons_of_mem _ hu)) r.state
    · exact ⟨_, rfl⟩

theorem mainLoop_sampleA :
    mainLoop lcd320x240 failingInterpreter State.init [sampleA] =
      some (⟨reset [], 160, 120⟩, false) := by
  simp only [mainLoop, tick_init_sampleA]
  rfl

/-- C5, as stated, fails. The accepted sample (257/512, 1/2) has the screen point
(160.625, 120) on the 320 x 240 panel, as an exact product and as the `float` product
of lines 67-68 alike; after its iteration the previous point is (160, 120), and 160 is
not 160.625. -/
theorem previous_point_truncated :
    inUnitSquare sampleA ∧ (sampleA.tpPressure > 50 ∧ sampleA.tpX < 95 / 100) ∧
    mainLoop lcd320x240 failingInterpreter State.init [sampleA] =
      some (⟨reset [], 160, 120⟩, false) ∧
    sampleA.tpX * lcd320x240.WIDTH = 1285 / 8 ∧
    screenX lcd320x240 sampleA = 1285 / 8 ∧
    ((160 : Int) : ℚ) ≠ sampleA.tpX * lcd320x240.WIDTH ∧
    ((160 : Int) : ℚ) ≠ screenX lcd320x240 sampleA := by
  refine ⟨sample_inUnitSquare.1, sampleA_accepted, mainLoop_sampleA, ?_, sampleA_point.1,
    ?_, ?_⟩
  · norm_num [sampleA, lcd320x240]
  · norm_num [sampleA, lcd320x240]
  · rw [sampleA_point.1]; norm_num

/-- C5, amended. For every finite stream of samples with `x`, `y` in [0, 1] (and panel
constants from 0 to below `2 ^ 24`), the loop is defined, and after each iteration
that returns, `tpXprevious` is -1 if and only if the sample of that iteration had
pressure at most 50 or `x` at least 0.95; after an accepted sample the previous point
is that sample's screen point, the `float` products of lines 67-68, truncated toward
zero to whole pixels, and `tpXprevious` is not -1. -/
theorem mainLoop_previous_point (lcd : LcdIli9341SPI) (hl : lcd.valid)
    (itp : MicroInterpreter) (st : State) (samples : List TouchSample) (s : TouchSample)
    (hs : ∀ t ∈ samples ++ [s], inUnitSquare t) :
    ∃ st' halted, mainLoop lcd itp st (samples ++ [s]) = some (st', halted) ∧
      (halted = false →
        (st'.tpXprevious = -1 ↔ (s.tpPressure ≤ 50 ∨ 95 / 100 ≤ s.tpX)) ∧
        (s.tpPressure > 50 ∧ s.tpX < 95 / 100 →
          st'.tpXprevious = truncQ (screenX lcd s) ∧
          st'.tpYprevious = truncQ (screenY lcd s) ∧
          st'.tpXprevious ≠ -1)) := by
  have hs1 : ∀ t ∈ samples, inUnitSquare t :=
    fun t ht => hs t (List.mem_append_left _ ht)
  have hs2 : inUnitSquare s := hs s (List.mem_append_right _ (List.mem_singleton_self s))
  have hacc : ¬ accepted s ↔ (s.tpPressure ≤ 50 ∨ 95 / 100 ≤ s.tpX) := by
    unfold accepted
    rw [not_and_or, not_lt, not_lt]
  obtain ⟨⟨st1, b⟩, h1⟩ := mainLoop_defined lcd itp hl samples hs1 st
  rw [mainLoop_snoc, h1]
  cases b with
  | true => exact ⟨st1, true, rfl, fun hf => absurd hf (by decide)⟩
  | false =>
    obtain ⟨r, hr⟩ := tick_defined lcd itp st1 s hl hs2
    simp only [hr]
    refine ⟨r.state, r.halted, rfl, ?_⟩
    intro hh
    obtain ⟨hiff, hacc'⟩ := tick_previous hl hs2 hr hh
    refine ⟨hiff.trans hacc, ?_⟩
    intro ha
    obtain ⟨hx, hy, ⟨hnx, _⟩, _⟩ := hacc' ha
    refine ⟨hx, hy, ?_⟩
    intro he
    rw [he] at hnx
    exact absurd hnx (by decide)

/-- C5, amended, on the stream `sampleA`, `sampleB` from the initial state. -/
theorem mainLoop_previous_point_witness :
    ∃ st' halted,
      mainLoop lcd320x240 failingInterpreter State.init ([sampleA] ++ [sampleB]) =
        some (st', halted) ∧
      (halted = false →
        (st'.tpXprevious = -1 ↔ (sampleB.tpPressure ≤ 50 ∨ 95 / 100 ≤ sampleB.tpX)) ∧
        (sampleB.tpPressure > 50 ∧ sampleB.tpX < 95 / 100 →
          st'.tpXprevious = truncQ (screenX lcd320x240 sampleB) ∧
          st'.tpYprevious = truncQ (screenY lcd320x240 sampleB) ∧
          st'.tpXprevious ≠ -1)) :=
  mainLoop_previous_point lcd320x240 lcd320x240_valid failingInterpreter State.init
    [sampleA] sampleB
    (by
      intro t ht
      rcases List.mem_append.mp ht with h | h
      · rw [List.mem_singleton.mp h]; exact sample_inUnitSquare.1
      · rw [List.mem_singleton.mp h]; exact sample_inUnitSquare.2.1)

/-! ## The noise bound -/

theorem ten_le_abs_roundF32 {d : ℚ} (h : 10 ≤ |d|) : 10 ≤ |roundF32 d| := by
  have e10 : roundF32 10 = 10 := by
    have := roundF32_intCast 10 (by decide) (by decide)
    simpa using this
  have em10 : roundF32 (-10) = -10 := by
    have := roundF32_intCast (-10) (by decide) (by decide)
    simpa using this
  rcases le_abs.mp h with h1 | h1
  · have := roundF32_mono h1
    rw [e10] at this
    exact le_trans this (le_abs_self _)
  · have h2 : d ≤ -10 := by linarith
    have := roundF32_mono h2
    rw [em10] at this
    exact le_trans (by linarith) (neg_le_abs _)

/-- C3, as stated, fails. On the 320 x 240 panel the accepted samples `sampleA` and
`sampleB` have the screen points (160.625, 120) and (150.3125, 120), as exact products
and as the `float` products of lines 67-68 alike; they differ by 10.3125 in `x`. The
first iteration stores the previous point (160, 120); the second finds
`|150.3125 - 160| < 10`, calls `writeMnistBuffer` and turns cell 546, that is cell
(14, 19), from 0 to 1. -/
theorem tick_rasterizes_ten_pixel_jump :
    accepted sampleA ∧ accepted sampleB ∧
    10 ≤ |sampleB.tpX * lcd320x240.WIDTH - sampleA.tpX * lcd320x240.WIDTH| ∧
    10 ≤ |screenX lcd320x240 sampleB - screenX lcd320x240 sampleA| ∧
    tick lcd320x240 failingInterpreter State.init sampleA =
      some { state := ⟨reset [], 160, 120⟩, action := none, rasterized := false,
             halted := false } ∧
    tick lcd320x240 failingInterpreter ⟨reset [], 160, 120⟩ sampleB =
      some { state := ⟨(reset []).set 546 1, 150, 120⟩, action := none, rasterized := true,
             halted := false } ∧
    (reset []).getD 546 0 = 0 ∧ ((reset []).set 546 1).getD 546 0 = 1 := by
  refine ⟨sampleA_accepted, sampleB_accepted, ?_, ?_, tick_init_sampleA _,
    tick_sampleB_near _ _, reset_getD _ _, getD_set_self _ _ _ (by rw [reset_length]; decide)⟩
  · norm_num [sampleA, sampleB, lcd320x240, le_abs]
  · rw [sampleA_point.1, sampleB_point.1]; norm_num [le_abs]

/-- C3, amended. For every pair of consecutive accepted samples of the unit square
(panel constants from 0 to below `2 ^ 24`), if the screen point of the second, the
`float` products of lines 67-68, differs from the stored previous point, which is the
screen point of the first truncated toward zero to whole pixels, by at least 10 in `x`
or in `y`, then the iteration for the second sample is defined, leaves `s_mnistBuffer`
unchanged without calling `writeMnistBuffer`, triggers no mode action, and stores the
truncated screen point of the second sample as the previous point. -/
theorem tick_drops_far_segment (lcd : LcdIli9341SPI) (hl : lcd.valid)
    (itp : MicroInterpreter) (st : State) (s1 s2 : TouchSample) (r1 : Tick)
    (hs1 : inUnitSquare s1) (hs2 : inUnitSquare s2)
    (ha1 : accepted s1) (ha2 : accepted s2)
    (h1 : tick lcd itp st s1 = some r1) (hh : r1.halted = false)
    (hfar : 10 ≤ |screenX lcd s2 - truncQ (screenX lcd s1)| ∨
            10 ≤ |screenY lcd s2 - truncQ (screenY lcd s1)|) :
    r1.state.tpXprevious = truncQ (screenX lcd s1) ∧
    r1.state.tpYprevious = truncQ (screenY lcd s1) ∧
    tick lcd itp r1.state s2 =
      some { state := ⟨r1.state.s_mnistBuffer, truncQ (screenX lcd s2),
                       truncQ (screenY lcd s2)⟩,
             action := none, rasterized := false, halted := false } := by
  obtain ⟨_, hprev⟩ := tick_previous hl hs1 h1 hh
  obtain ⟨hx, hy, ⟨hnx, hux⟩, hny, huy⟩ := hprev ha1
  have hp : r1.state.tpXprevious ≠ -1 := by
    intro he
    rw [he] at hnx
    exact absurd hnx (by decide)
  obtain ⟨⟨hW0, hW1⟩, hH0, hH1⟩ := hl
  have hix : i2f r1.state.tpXprevious = r1.state.tpXprevious :=
    i2f_eq _ (abs_lt_pow24 (by omega) (by omega))
  have hiy : i2f r1.state.tpYprevious = r1.state.tpYprevious :=
    i2f_eq _ (abs_lt_pow24 (by omega) (by omega))
  have hf : ¬ near lcd r1.state s2 := by
    unfold near fsub
    rw [hix, hiy, hx, hy]
    rintro ⟨hnx', hny'⟩
    rcases hfar with hfar | hfar
    · exact absurd hnx' (not_lt.mpr (ten_le_abs_roundF32 hfar))
    · exact absurd hny' (not_lt.mpr (ten_le_abs_roundF32 hfar))
  obtain ⟨⟨hx0, hx1⟩, hy0, hy1⟩ := hs2
  obtain ⟨hcx, _⟩ := toInt32_screen hx0 hx1 hW0 hW1
  obtain ⟨hcy, _⟩ := toInt32_screen hy0 hy1 hH0 hH1
  have hcx' : toInt32 (screenX lcd s2) = some (truncQ (screenX lcd s2)) := hcx
  have hcy' : toInt32 (screenY lcd s2) = some (truncQ (screenY lcd s2)) := hcy
  refine ⟨hx, hy, ?_⟩
  rw [tick_far lcd itp r1.state s2 ha2 hp hf, setPrevious_of_casts _ _ _ _ _ hcx' hcy']

/-- C3, amended, on `sampleA` followed by `sampleC`: the screen point (80, 120) is 80
pixels away from the stored (160, 120), and the grid is unchanged. -/
theorem tick_drops_far_segment_witness :
    10 ≤ |screenX lcd320x240 sampleC - truncQ (screenX lcd320x240 sampleA)| ∧
    tick lcd320x240 failingInterpreter ⟨reset [], 160, 120⟩ sampleC =
      some { state := ⟨reset [], truncQ (screenX lcd320x240 sampleC),
                       truncQ (screenY lcd320x240 sampleC)⟩,
             action := none, rasterized := false, halted := false } :=
  have hfar : 10 ≤ |screenX lcd320x240 sampleC -
      truncQ (screenX lcd320x240 sampleA)| := by
    rw [truncQ_sampleA.1, sampleC_point.1]; norm_num [le_abs]
  ⟨hfar,
   (tick_drops_far_segment lcd320x240 lcd320x240_valid failingInterpreter State.init
      sampleA sampleC (Tick.mk ⟨reset [], 160, 120⟩ none false false)
      sample_inUnitSquare.1 sample_inUnitSquare.2.2 sampleA_accepted sampleC_accepted
      (tick_init_sampleA failingInterpreter) rfl (Or.inl hfar)).2.2⟩

end PicoMnist
